import Mathlib

/-!
# MeetSpot — verification of the location-resolution and ranking engine

Shallow embedding of `app/tool/meetspot_recommender.py` (class
`CafeRecommender`): bounded FIFO caches, the venue-search fallback ladder in
`execute`, the V2 multi-dimensional scoring system, the three-tier requirement
matcher, the diversity adjustment, and the 2-point spherical midpoint.

Conventions of the embedding:
* Python `dict`s used as insertion-ordered caches are association lists
  `List (String × V)` in insertion order (head = oldest entry).
* Python floats are idealized as `ℚ` where the code only does field
  arithmetic and comparisons, and as `ℝ` where it uses `math.log10`,
  `** 1.5`, `math.sqrt` or trigonometry.
* A parsed-from-string number (e.g. `float(biz_ext["rating"])`) is embedded
  as the parse's result, with the code's failure convention already applied
  (the code maps a missing / unparsable rating to `0`).
* Network calls are oracle parameters: a function from the request
  parameters to the response the upstream would deliver.
-/

namespace MeetSpot

/-- Python's substring test `sub in s`, on the underlying character lists. -/
def pyContains (sub s : String) : Bool :=
  decide (sub.data <:+: s.data)

/-- Python's `s.startswith(pre)`, on the underlying character lists. -/
def pyStartsWith (pre s : String) : Bool :=
  decide (pre.data <+: s.data)

/-- Python's `s.lower()`: lower-case each character (as `String.toLower`
does, expressed over the character list so that terms reduce). -/
def pyLower (s : String) : String :=
  String.mk (s.data.map Char.toLower)

/-! ## Bounded FIFO caches (`GEOCODE_CACHE_MAX`, `POI_CACHE_MAX`)

`_geocode` and `_search_pois` both guard insertion with

    if len(cache) >= MAX:
        oldest_key = next(iter(cache))
        del cache[oldest_key]
    cache[key] = value

On an insertion-ordered dict, `next(iter(cache))` is the oldest-inserted key,
so the guard drops the head of the association list; the assignment appends
the (new) key at the tail. -/

def GEOCODE_CACHE_MAX : ℕ := 30

def POI_CACHE_MAX : ℕ := 15

/-- One cache insertion step with FIFO eviction at capacity `maxSize`. -/
def cacheInsert {V : Type} (maxSize : ℕ) (cache : List (String × V))
    (k : String) (v : V) : List (String × V) :=
  (if maxSize ≤ cache.length then cache.drop 1 else cache) ++ [(k, v)]

theorem cacheInsert_length_le {V : Type} (maxSize : ℕ) (hmax : 1 ≤ maxSize)
    (cache : List (String × V)) (k : String) (v : V)
    (h : cache.length ≤ maxSize) :
    (cacheInsert maxSize cache k v).length ≤ maxSize := by
  unfold cacheInsert
  by_cases hc : maxSize ≤ cache.length
  · simp only [if_pos hc, List.length_append, List.length_drop,
      List.length_cons, List.length_nil]
    omega
  · simp only [if_neg hc, List.length_append, List.length_cons,
      List.length_nil]
    omega

theorem cacheInsert_at_capacity {V : Type} (maxSize : ℕ)
    (cache : List (String × V)) (k : String) (v : V)
    (h : cache.length = maxSize) :
    cacheInsert maxSize cache k v = cache.tail ++ [(k, v)] := by
  unfold cacheInsert
  rw [if_pos (le_of_eq h.symm), List.drop_one]

/-! ## Venues

The fields of the Amap POI dict that the engine reads. `location` is the
parse of the `"lng,lat"` string (`none` when the field is missing or
unparsable); `rating` is the top-level `"rating"` key read by the
`min_rating` hard filter (`none` when missing or falsy); `biz_ext_rating`
is `float(biz_ext["rating"])` with the code's failure convention (missing
or unparsable ↦ `0`); `photo_count` is `len(photos)`; `source_keyword` is
`_source_keyword` (`""` when absent). -/

structure Venue where
  name : String := ""
  type : String := ""
  tag : String := ""
  parking_type : String := ""
  navi_poiid : String := ""
  address : String := ""
  location : Option (ℚ × ℚ) := none
  rating : Option ℚ := none
  biz_ext_rating : ℚ := 0
  review_count : ℤ := 0
  photo_count : ℕ := 0
  source_keyword : String := ""
  deriving DecidableEq, Repr, Inhabited

/-! ## `_geocode`: cached resolution with POI-first / geocode-fallback

The upstream calls are oracles: `oracle_poi` is the outcome of
`_geocode_via_poi` and `oracle_geo` the outcome of the geocode retry loop
(the loop's retries and backoff only affect timing, not which value the
loop settles on, so it is collapsed to its final outcome). -/

structure GeoResult where
  location : String := ""
  formatted_address : String := ""
  deriving DecidableEq, Repr, Inhabited

structure GeoState where
  geocode_cache : List (String × GeoResult) := []
  poi_cache : List (String × List Venue) := []
  deriving DecidableEq, Repr, Inhabited

/-- `_enhance_address`: alias-expand a handful of university short names. -/
def enhance_address (address : String) : String :=
  if address = "" then address
  else
    let normalized := address.trim
    let alias_to_fullname : List (String × String) :=
      [("北大", "北京市海淀区北京大学"),
       ("清华", "北京市海淀区清华大学"),
       ("人大", "北京市海淀区中国人民大学"),
       ("北师大", "北京市海淀区北京师范大学"),
       ("复旦", "上海市杨浦区复旦大学"),
       ("上交", "上海市闵行区上海交通大学"),
       ("浙大", "浙江省杭州市浙江大学"),
       ("中大", "广东省广州市中山大学"),
       ("华工", "广东省广州市华南理工大学"),
       ("华科", "湖北省武汉市华中科技大学")]
    match alias_to_fullname.lookup normalized with
    | some mapped => mapped
    | none => normalized

/-- The geocode-fallback tail of `_geocode` (lines 914–967): alias-expand
the address, run the retry loop (collapsed to `oracle_geo`'s outcome), and
insert a success into the geocode cache. -/
def geocodeFallback (oracle_geo : String → Option GeoResult)
    (st : GeoState) (address : String) : Option GeoResult × GeoState :=
  match oracle_geo (enhance_address address) with
  | some result =>
      (some result,
       { st with geocode_cache :=
           cacheInsert GEOCODE_CACHE_MAX st.geocode_cache address result })
  | none => (none, st)

/-- `_geocode`: cache hit on the raw address short-circuits everything;
otherwise POI text search first (kept only when its `location` is truthy),
then coordinate geocoding of the alias-expanded address. `api_key_ok`
models whether an API key is configured. -/
def geocode (oracle_poi : String → Option GeoResult)
    (oracle_geo : String → Option GeoResult) (api_key_ok : Bool)
    (st : GeoState) (address : String) : Option GeoResult × GeoState :=
  match st.geocode_cache.lookup address with
  | some cached => (some cached, st)
  | none =>
      if api_key_ok then
        match oracle_poi address with
        | some poi_result =>
            if poi_result.location ≠ "" then
              (some poi_result,
               { st with geocode_cache :=
                   (cacheInsert GEOCODE_CACHE_MAX st.geocode_cache address
                     poi_result) })
            else geocodeFallback oracle_geo st address
        | none => geocodeFallback oracle_geo st address
      else (none, st)

/-- `_search_pois`: cached by `"location_keywords_radius_types"`, FIFO
insertion at capacity `POI_CACHE_MAX` on a miss that the upstream answers.
`oracle` is the outcome of the HTTP call (`none` = non-200 or API error,
which is returned as `[]` and not cached). -/
def search_pois (oracle : String → Option (List Venue)) (st : GeoState)
    (location keywords : String) (radius : ℕ) (types : String) :
    List Venue × GeoState :=
  let cache_key :=
    location ++ "_" ++ keywords ++ "_" ++ toString radius ++ "_" ++ types
  match st.poi_cache.lookup cache_key with
  | some cached => (cached, st)
  | none =>
      match oracle cache_key with
      | none => ([], st)
      | some pois =>
          (pois,
           { st with poi_cache :=
               cacheInsert POI_CACHE_MAX st.poi_cache cache_key pois })

/-! ## The fallback ladder of `execute` (lines 630–682)

`search kw radius types` stands for
`_search_pois(f"{lng},{lat}", kw, radius=radius, types=types)` at the fixed
meeting point of the request. -/

def fallback_categories : List String := ["餐厅", "咖啡馆", "商场", "美食"]

structure FallbackResult where
  places : List Venue
  fallback_used : Bool
  fallback_keyword : Option String
  deriving DecidableEq, Repr

/-- The rung-3 loop: walk `fallback_categories`, skip a category equal to
the original keyword, return the first category whose search is
non-empty. -/
def fallbackLoop (search : String → ℕ → String → List Venue)
    (keywords : String) : List String → Option (String × List Venue)
  | [] => none
  | kw :: rest =>
      if kw ≠ keywords then
        if search kw 5000 "" ≠ [] then some (kw, search kw 5000 "")
        else fallbackLoop search keywords rest
      else fallbackLoop search keywords rest

/-- The four-rung venue-search ladder of `execute` for a single-keyword
request: (1) keyword + category code, (2) bare keyword, (3) the fixed
fallback category list, (4) "餐厅" at the 50 km maximum radius. Only rungs
3 and 4 set `fallback_used` / `fallback_keyword`. -/
def searchWithFallback (search : String → ℕ → String → List Venue)
    (keywords place_type : String) : FallbackResult :=
  let r1 := search keywords 5000 place_type
  if r1 ≠ [] then ⟨r1, false, none⟩
  else
    let r2 := search keywords 5000 ""
    if r2 ≠ [] then ⟨r2, false, none⟩
    else
      match fallbackLoop search keywords fallback_categories with
      | some (kw, r3) => ⟨r3, true, some kw⟩
      | none =>
          let r4 := search "餐厅" 50000 ""
          if r4 ≠ [] then ⟨r4, true, some "餐厅（扩大范围）"⟩
          else ⟨[], false, none⟩

/-! ## V2 multi-dimensional scoring -/

/-- The rating used by `_calculate_base_score`: `float(biz_ext["rating"])`,
with `0` (absent / unparsable / literal zero) replaced by the 3.5
default. -/
def base_score_rating (place : Venue) : ℚ :=
  if place.biz_ext_rating = 0 then 3.5 else place.biz_ext_rating

/-- `_calculate_base_score` (max 30): `min(rating, 5) * 6`. -/
def calculate_base_score (place : Venue) : ℚ :=
  min (base_score_rating place) 5 * 6

/-- `_calculate_popularity_score` (max 20):
`min(20, log10(review_count+1)*5 + min(photo_count*2, 6))`, the log term
present only when `review_count > 0`. -/
noncomputable def calculate_popularity_score (place : Venue) : ℝ :=
  let review_score : ℝ :=
    if 0 < place.review_count then
      Real.logb 10 ((place.review_count : ℝ) + 1) * 5
    else 0
  let photo_score : ℕ := min (place.photo_count * 2) 6
  min 20 (review_score + (photo_score : ℝ))

/-- `_calculate_distance`: planar approximation
`sqrt((Δlng*85000)² + (Δlat*111000)²)` in metres. -/
noncomputable def calculate_distance (point1 point2 : ℚ × ℚ) : ℝ :=
  let x : ℚ := (point2.1 - point1.1) * 85000
  let y : ℚ := (point2.2 - point1.2) * 111000
  Real.sqrt ((x : ℝ) * x + y * y)

/-- The distance-to-score curve of `_calculate_distance_score_v2`
(max 25): flat 25 up to 500 m, then
`25 * (1 - 0.8 * ((d-500)/2000) ** 1.5)` up to 2500 m, then flat 5. -/
noncomputable def distance_decay_score (distance : ℝ) : ℝ :=
  if distance ≤ 500 then 25
  else if distance ≤ 2500 then
    let ratio := (distance - 500) / 2000
    let decay := ratio ^ (1.5 : ℝ)
    25 * (1 - decay * 0.8)
  else 5

/-- `_calculate_distance_score_v2`: score 0 (and distance `inf`, modelled
`none`) when the `location` string is missing or unparsable. -/
noncomputable def calculate_distance_score_v2 (place : Venue)
    (center_point : ℚ × ℚ) : ℝ × Option ℝ :=
  match place.location with
  | none => (0, none)
  | some loc =>
      let distance := calculate_distance center_point loc
      (distance_decay_score distance, some distance)

/-- `_calculate_scenario_match_score` (max 15): 15 when the venue's source
keyword is a non-empty substring of the requested keywords, else 8 for the
first requested keyword occurring in the venue's `type` string, else 0. -/
def calculate_scenario_match_score (place : Venue) (keywords : String) :
    ℚ × String :=
  if place.source_keyword ≠ "" ∧ pyContains place.source_keyword keywords then
    (15, place.source_keyword)
  else
    let keywords_list :=
      (((keywords.data.map (fun c => if c = '、' then ' ' else c)).splitOnP
          (fun c => c.isWhitespace)).map String.mk).filter
        (fun s => s ≠ "")
    match keywords_list.find? (fun kw => pyContains kw place.type) with
    | some kw => (8, kw)
    | none => (0, "")

/-! ## `_calculate_requirement_score`: three-tier requirement matching -/

/-- The requirement-normalization alias table. -/
def requirement_aliases : List (String × List String) :=
  [("停车", ["停车", "车位", "停车场", "免费停车", "方便停车", "停车方便"]),
   ("安静", ["安静", "环境好", "氛围", "静", "舒适", "环境安静"]),
   ("商务", ["商务", "会议", "办公", "谈事", "工作"]),
   ("交通", ["交通", "地铁", "公交", "方便", "交通便利"]),
   ("包间", ["包间", "私密", "独立", "包厢", "有包间"]),
   ("WiFi", ["wifi", "无线", "网络", "上网", "免费wifi"]),
   ("可以久坐", ["久坐", "可以久坐", "坐着办公", "长时间"]),
   ("适合儿童", ["儿童", "带娃", "亲子", "小孩", "适合儿童"]),
   ("24小时营业", ["24小时", "通宵", "夜间", "凌晨"])]

/-- The Layer-1 POI tag rules: requirement ↦ (fields to check, values). -/
def poi_match_rules : List (String × List String × List String) :=
  [("停车", (["tag", "parking_type", "navi_poiid"],
             ["停车", "车位", "免费停车", "parking"])),
   ("安静", (["tag"], ["安静", "环境", "氛围", "舒适", "优雅"])),
   ("商务", (["tag", "type"], ["商务", "会议", "办公", "商务区"])),
   ("交通", (["tag", "address"], ["地铁", "公交", "站", "枢纽"])),
   ("包间", (["tag"], ["包间", "包厢", "私密", "独立房间"])),
   ("WiFi", (["tag"], ["wifi", "无线", "免费WiFi", "网络"]))]

/-- `str(place.get(field, ""))` for the fields the matcher reads. -/
def venueField (place : Venue) (field : String) : String :=
  if field = "tag" then place.tag
  else if field = "parking_type" then place.parking_type
  else if field = "navi_poiid" then place.navi_poiid
  else if field = "type" then place.type
  else if field = "address" then place.address
  else ""

/-- `BRAND_FEATURES`: the brand / category-default knowledge base
(category-default entries carry a leading underscore). -/
def BRAND_FEATURES : List (String × List (String × ℚ)) :=
  [("星巴克", [("安静", 0.8), ("WiFi", 1.0), ("商务", 0.7), ("停车", 0.3), ("可以久坐", 0.9)]),
   ("瑞幸", [("安静", 0.4), ("WiFi", 0.7), ("商务", 0.4), ("停车", 0.3), ("可以久坐", 0.5)]),
   ("Costa", [("安静", 0.9), ("WiFi", 1.0), ("商务", 0.8), ("停车", 0.4), ("可以久坐", 0.9)]),
   ("漫咖啡", [("安静", 0.9), ("WiFi", 0.9), ("商务", 0.6), ("停车", 0.5), ("可以久坐", 1.0)]),
   ("太平洋咖啡", [("安静", 0.8), ("WiFi", 0.9), ("商务", 0.7), ("停车", 0.4), ("可以久坐", 0.8)]),
   ("Manner", [("安静", 0.5), ("WiFi", 0.6), ("商务", 0.4), ("停车", 0.2), ("可以久坐", 0.3)]),
   ("Seesaw", [("安静", 0.8), ("WiFi", 0.9), ("商务", 0.6), ("停车", 0.3), ("可以久坐", 0.8)]),
   ("M Stand", [("安静", 0.7), ("WiFi", 0.8), ("商务", 0.5), ("停车", 0.3), ("可以久坐", 0.7)]),
   ("Tims", [("安静", 0.6), ("WiFi", 0.8), ("商务", 0.5), ("停车", 0.4), ("可以久坐", 0.6)]),
   ("上岛咖啡", [("安静", 0.9), ("WiFi", 0.8), ("商务", 0.8), ("停车", 0.6), ("可以久坐", 0.9), ("包间", 0.7)]),
   ("Zoo Coffee", [("安静", 0.7), ("WiFi", 0.8), ("商务", 0.5), ("停车", 0.4), ("可以久坐", 0.8), ("适合儿童", 0.6)]),
   ("猫屎咖啡", [("安静", 0.8), ("WiFi", 0.8), ("商务", 0.6), ("停车", 0.4), ("可以久坐", 0.8)]),
   ("皮爷咖啡", [("安静", 0.7), ("WiFi", 0.8), ("商务", 0.5), ("停车", 0.3), ("可以久坐", 0.7)]),
   ("咖世家", [("安静", 0.8), ("WiFi", 0.9), ("商务", 0.7), ("停车", 0.4), ("可以久坐", 0.8)]),
   ("挪瓦咖啡", [("安静", 0.5), ("WiFi", 0.6), ("商务", 0.4), ("停车", 0.2), ("可以久坐", 0.4)]),
   ("海底捞", [("包间", 0.9), ("停车", 0.8), ("安静", 0.2), ("适合儿童", 0.9), ("24小时营业", 0.3)]),
   ("西贝", [("包间", 0.7), ("停车", 0.6), ("安静", 0.5), ("适合儿童", 0.7)]),
   ("外婆家", [("包间", 0.5), ("停车", 0.5), ("安静", 0.3), ("适合儿童", 0.6)]),
   ("绿茶", [("包间", 0.4), ("停车", 0.5), ("安静", 0.4), ("适合儿童", 0.5)]),
   ("小龙坎", [("包间", 0.6), ("停车", 0.5), ("安静", 0.2), ("适合儿童", 0.4)]),
   ("呷哺呷哺", [("包间", 0.0), ("停车", 0.4), ("安静", 0.3), ("适合儿童", 0.5)]),
   ("大龙燚", [("包间", 0.5), ("停车", 0.5), ("安静", 0.2), ("适合儿童", 0.4)]),
   ("眉州东坡", [("包间", 0.8), ("停车", 0.7), ("安静", 0.6), ("适合儿童", 0.7), ("商务", 0.7)]),
   ("全聚德", [("包间", 0.9), ("停车", 0.7), ("安静", 0.6), ("适合儿童", 0.6), ("商务", 0.8)]),
   ("大董", [("包间", 0.9), ("停车", 0.8), ("安静", 0.8), ("商务", 0.9)]),
   ("鼎泰丰", [("包间", 0.5), ("停车", 0.6), ("安静", 0.6), ("适合儿童", 0.7)]),
   ("南京大牌档", [("包间", 0.6), ("停车", 0.5), ("安静", 0.3), ("适合儿童", 0.6)]),
   ("九毛九", [("包间", 0.4), ("停车", 0.5), ("安静", 0.4), ("适合儿童", 0.6)]),
   ("太二酸菜鱼", [("包间", 0.0), ("停车", 0.4), ("安静", 0.3), ("适合儿童", 0.4)]),
   ("湘鄂情", [("包间", 0.8), ("停车", 0.7), ("安静", 0.5), ("商务", 0.7)]),
   ("麦当劳", [("停车", 0.5), ("WiFi", 0.8), ("适合儿童", 0.9), ("24小时营业", 0.8)]),
   ("肯德基", [("停车", 0.5), ("WiFi", 0.7), ("适合儿童", 0.9), ("24小时营业", 0.6)]),
   ("必胜客", [("包间", 0.3), ("停车", 0.5), ("适合儿童", 0.8), ("安静", 0.5)]),
   ("萨莉亚", [("停车", 0.4), ("适合儿童", 0.7), ("安静", 0.4)]),
   ("汉堡王", [("停车", 0.4), ("WiFi", 0.6), ("适合儿童", 0.7)]),
   ("赛百味", [("停车", 0.3), ("WiFi", 0.5), ("可以久坐", 0.4)]),
   ("棒约翰", [("停车", 0.4), ("适合儿童", 0.7), ("包间", 0.2)]),
   ("达美乐", [("停车", 0.3), ("适合儿童", 0.6)]),
   ("DQ", [("适合儿童", 0.9), ("停车", 0.4)]),
   ("哈根达斯", [("适合儿童", 0.7), ("安静", 0.6), ("可以久坐", 0.5)]),
   ("喜茶", [("安静", 0.4), ("可以久坐", 0.5), ("停车", 0.3)]),
   ("奈雪的茶", [("安静", 0.5), ("可以久坐", 0.6), ("停车", 0.4), ("WiFi", 0.6)]),
   ("茶百道", [("安静", 0.3), ("可以久坐", 0.3), ("停车", 0.2)]),
   ("一点点", [("安静", 0.2), ("可以久坐", 0.2), ("停车", 0.2)]),
   ("蜜雪冰城", [("安静", 0.2), ("可以久坐", 0.2), ("停车", 0.2)]),
   ("茶颜悦色", [("安静", 0.4), ("可以久坐", 0.4), ("停车", 0.3)]),
   ("古茗", [("安静", 0.3), ("可以久坐", 0.3), ("停车", 0.2)]),
   ("CoCo", [("安静", 0.3), ("可以久坐", 0.3), ("停车", 0.2)]),
   ("_图书馆", [("安静", 1.0), ("WiFi", 0.9), ("可以久坐", 1.0)]),
   ("_书店", [("安静", 1.0), ("可以久坐", 0.8), ("WiFi", 0.5)]),
   ("_商场", [("停车", 0.9), ("交通", 0.8), ("适合儿童", 0.7)]),
   ("_酒店", [("安静", 0.9), ("商务", 0.9), ("停车", 0.8), ("WiFi", 0.9), ("包间", 0.8)]),
   ("_电影院", [("停车", 0.7), ("适合儿童", 0.6)]),
   ("_KTV", [("包间", 1.0), ("停车", 0.6), ("24小时营业", 0.5)]),
   ("_健身房", [("停车", 0.6), ("WiFi", 0.5)]),
   ("_网咖", [("WiFi", 1.0), ("24小时营业", 0.8), ("可以久坐", 0.9)]),
   ("_便利店", [("24小时营业", 0.9)])]

/-- The set of canonical requirements recognized in the free text: a
requirement is recognized when any of its aliases occurs (lowercased) in
the lowercased input. The Python code collects them into a `set`; here
they are listed in table order (every claim proved about them is
insensitive to that order). -/
def recognized_requirements (user_requirements : String) : List String :=
  ((requirement_aliases.filter (fun ra =>
    ra.2.any (fun al =>
      pyContains (pyLower al) (pyLower user_requirements)))).map Prod.fst)

/-- Mutable locals of `_calculate_requirement_score`:
`matched`, `confidence_map`, `total_score`. -/
structure MatchState where
  matched : List String := []
  confidence_map : List (String × String) := []
  total_score : ℕ := 0
  deriving DecidableEq, Repr

/-- Whether the venue has a Layer-1 (POI tag/field) hit for `req_name`. -/
def layer1Hit (place : Venue) (req_name : String) : Bool :=
  match poi_match_rules.lookup req_name with
  | none => false
  | some (check_fields, match_values) =>
      check_fields.any (fun field =>
        match_values.any (fun mv =>
          pyContains (pyLower mv) (pyLower (venueField place field))))

/-- One Layer-1 iteration: skip an already-matched requirement, else on a
tag hit record the match with confidence "high" and +4. -/
def layer1_step (place : Venue) (acc : MatchState) (req_name : String) :
    MatchState :=
  if req_name ∈ acc.matched then acc
  else if layer1Hit place req_name then
    { matched := acc.matched ++ [req_name],
      confidence_map := acc.confidence_map ++ [(req_name, "high")],
      total_score := acc.total_score + 4 }
  else acc

/-- One Layer-2 iteration over the matched brand's feature map: a feature
strength ≥ 0.7 records the match with confidence "medium" and +2. -/
def layer2_step (features : List (String × ℚ)) (acc : MatchState)
    (req_name : String) : MatchState :=
  if req_name ∈ acc.matched then acc
  else if (7 : ℚ) / 10 ≤ (features.lookup req_name).getD 0 then
    { matched := acc.matched ++ [req_name],
      confidence_map := acc.confidence_map ++ [(req_name, "medium")],
      total_score := acc.total_score + 2 }
  else acc

/-- One Layer-3 iteration over the matched category-default profile: a
strength ≥ 0.8 records the match with confidence "low" and +1. -/
def layer3_step (features : List (String × ℚ)) (acc : MatchState)
    (req_name : String) : MatchState :=
  if req_name ∈ acc.matched then acc
  else if (8 : ℚ) / 10 ≤ (features.lookup req_name).getD 0 then
    { matched := acc.matched ++ [req_name],
      confidence_map := acc.confidence_map ++ [(req_name, "low")],
      total_score := acc.total_score + 1 }
  else acc

/-- Layer 2 picks the first non-underscore brand contained in the venue
name (the loop `break`s after the first such brand, whether or not any
requirement matched). -/
def layer2 (place : Venue) (user_reqs : List String) (acc : MatchState) :
    MatchState :=
  match (BRAND_FEATURES.filter (fun e => !pyStartsWith "_" e.1)).find?
      (fun e => pyContains e.1 place.name) with
  | some e => user_reqs.foldl (layer2_step e.2) acc
  | none => acc

/-- Layer 3 picks the first underscore (category-default) entry whose name
(sans underscore) occurs in the venue's type or name. -/
def layer3 (place : Venue) (user_reqs : List String) (acc : MatchState) :
    MatchState :=
  match (BRAND_FEATURES.filter (fun e => pyStartsWith "_" e.1)).find?
      (fun e => pyContains (String.mk (e.1.data.drop 1)) place.type ||
                pyContains (String.mk (e.1.data.drop 1)) place.name) with
  | some e => user_reqs.foldl (layer3_step e.2) acc
  | none => acc

/-- `_calculate_requirement_score` (max 10): recognize requirements, then
Layer 1 (tag hard match, high), Layer 2 (brand features, medium), Layer 3
(category defaults, low); the total is capped at 10. -/
def calculate_requirement_score (place : Venue)
    (user_requirements : String) :
    ℕ × List String × List (String × String) :=
  if user_requirements = "" then (0, [], [])
  else
    let user_reqs := recognized_requirements user_requirements
    if user_reqs = [] then (0, [], [])
    else
      let st1 := user_reqs.foldl (layer1_step place) {}
      let st2 := layer2 place user_reqs st1
      let st3 := layer3 place user_reqs st2
      (min 10 st3.total_score, st3.matched, st3.confidence_map)

/-! ## `_rank_places`: filters, composite score, diversity, balancing

In Python the scoring pass mutates each place dict with derived
`_`-prefixed fields; here a `ScoredPlace` record carries them. -/

structure ScoredPlace where
  place : Venue
  score : ℝ
  distance : Option ℝ := none
  matched_requirements : List String := []
  requirement_confidence : List (String × String) := []
  diversity_penalty : Option ℕ := none

/-- Python's `s.replace(pattern, "")`: remove all (non-overlapping,
left-to-right) occurrences of `pattern`; the fuel argument (one unit per
consumed character) keeps the recursion structural. -/
def replaceAllAux (pattern : List Char) : ℕ → List Char → List Char
  | _, [] => []
  | 0, l => l
  | fuel + 1, c :: rest =>
      if pattern ≠ [] ∧ pattern <+: (c :: rest) then
        replaceAllAux pattern fuel ((c :: rest).drop pattern.length)
      else c :: replaceAllAux pattern fuel rest

def replaceAll (pattern l : List Char) : List Char :=
  replaceAllAux pattern l.length l

/-- The brand normalization of `_apply_diversity_adjustment`:
`name.split("(")[0].split("（")[0].replace("店", "").replace("分店", "")`
(`split(sep)[0]` is the prefix before the first separator, i.e.
`takeWhile`). -/
def brand_name (name : String) : String :=
  String.mk (replaceAll ['分', '店'] (replaceAll ['店']
    ((name.data.takeWhile (fun c => c ≠ '(')).takeWhile
      (fun c => c ≠ '（'))))

/-- Association-list update, mirroring `seen_brands[brand] = n`. -/
def updateSeen : List (String × ℕ) → String → ℕ → List (String × ℕ)
  | [], b, n => [(b, n)]
  | (k, v) :: rest, b, n =>
      if k = b then (k, n) :: rest else (k, v) :: updateSeen rest b n

/-- The penalty applied to one place given how many same-brand places
were already seen: zero seen ⇒ untouched; otherwise subtract
`min(15, seen_count * 5)` and record it. -/
noncomputable def applyPenalty (p : ScoredPlace) (seen_count : ℕ) :
    ScoredPlace :=
  if 0 < seen_count then
    { p with score := p.score - (min 15 (seen_count * 5) : ℕ),
             diversity_penalty := some (min 15 (seen_count * 5)) }
  else p

/-- The main loop of `_apply_diversity_adjustment`: `counts` is
`name_counts` (occurrences of each normalized brand in the whole list);
for a brand occurring more than once, every occurrence after the first is
penalized by `min(15, seen_count * 5)` points. -/
noncomputable def diversityLoop (counts : String → ℕ)
    (seen : List (String × ℕ)) : List ScoredPlace → List ScoredPlace
  | [] => []
  | p :: rest =>
      let b := brand_name p.place.name
      if 1 < counts b then
        let seen_count := (seen.lookup b).getD 0
        applyPenalty p seen_count ::
          diversityLoop counts (updateSeen seen b (seen_count + 1)) rest
      else p :: diversityLoop counts seen rest

/-- `_apply_diversity_adjustment`. -/
noncomputable def apply_diversity_adjustment (places : List ScoredPlace) :
    List ScoredPlace :=
  diversityLoop
    (fun b => places.countP (fun p => brand_name p.place.name = b)) [] places

/-- Stable descending insertion (auxiliary to `sortDesc`). -/
noncomputable def insertDesc (v : ScoredPlace) :
    List ScoredPlace → List ScoredPlace
  | [] => [v]
  | x :: xs =>
      if x.score ≤ v.score then v :: x :: xs else x :: insertDesc v xs

/-- `sorted(places, key=lambda x: x.get("_score", 0), reverse=True)`:
a stable descending sort by score. -/
noncomputable def sortDesc : List ScoredPlace → List ScoredPlace
  | [] => []
  | x :: xs => insertDesc x (sortDesc xs)

/-- The scoring pass of `_rank_places` for one venue: the composite score
is the sum of the five components. -/
noncomputable def scorePlace (place : Venue) (center_point : ℚ × ℚ)
    (user_requirements keywords : String) : ScoredPlace :=
  let base_score := calculate_base_score place
  let popularity_score := calculate_popularity_score place
  let ds := calculate_distance_score_v2 place center_point
  let scenario_score := (calculate_scenario_match_score place keywords).1
  let rq := calculate_requirement_score place user_requirements
  { place := place,
    score := (base_score : ℝ) + popularity_score + ds.1 + (scenario_score : ℝ)
      + (rq.1 : ℝ),
    distance := ds.2,
    matched_requirements := rq.2.1,
    requirement_confidence := rq.2.2,
    diversity_penalty := none }

/-- `place.get('_source_keyword', '未知')` as used by the scenario
balancing (our `""` encodes an absent key). -/
def balanceKeyword (p : ScoredPlace) : String :=
  if p.place.source_keyword = "" then "未知" else p.place.source_keyword

/-- Keys of a Python dict built by insertion-ordered grouping: first
occurrences, in order. -/
def orderedKeys : List String → List String
  | [] => []
  | k :: rest => k :: (orderedKeys rest).filter (fun x => x ≠ k)

/-- The multi-scenario balancing step: at least 2 slots per source
keyword (`max(2, 8 // #keywords)`), then a final descending sort and a cut
to 8. -/
noncomputable def scenario_balance (ranked : List ScoredPlace) :
    List ScoredPlace :=
  let kws := orderedKeys (ranked.map balanceKeyword)
  let max_per_keyword := max 2 (8 / kws.length)
  let balanced := kws.flatMap (fun kw =>
    (ranked.filter (fun p => balanceKeyword p = kw)).take max_per_keyword)
  (sortDesc balanced).take 8

/-- `_rank_places`: hard filters (rating from the top-level `"rating"`
key, distance from the parsed location falling back to `(0, 0)`), the
five-component scoring pass, descending sort, diversity adjustment,
re-sort, then scenario balancing (cut 8) or the plain top-6 cut. -/
noncomputable def rank_places (places : List Venue) (center_point : ℚ × ℚ)
    (user_requirements keywords : String) (min_rating : ℚ)
    (max_distance : ℚ) : List ScoredPlace :=
  let places₁ :=
    if 0 < min_rating then
      places.filter (fun p => min_rating ≤ p.rating.getD 0)
    else places
  let places₂ :=
    if max_distance < 100000 then
      places₁.filter (fun p =>
        calculate_distance center_point (p.location.getD (0, 0)) ≤
          max_distance)
    else places₁
  if places₂ = [] then []
  else
    let scored := places₂.map
      (fun p => scorePlace p center_point user_requirements keywords)
    let ranked := sortDesc scored
    let ranked := apply_diversity_adjustment ranked
    let ranked := sortDesc ranked
    if ranked.any (fun p => p.place.source_keyword ≠ "") then
      scenario_balance ranked
    else ranked.take 6

/-! ## `_calculate_center_point` -/

noncomputable def radians (deg : ℝ) : ℝ := deg * Real.pi / 180

noncomputable def degrees (rad : ℝ) : ℝ := rad * 180 / Real.pi

/-- Python's `math.atan2 y x`: the argument of the complex number
`x + y·i`, in `(-π, π]`. -/
noncomputable def atan2 (y x : ℝ) : ℝ := Complex.arg ⟨x, y⟩

/-- The 2-point branch of `_calculate_center_point`: the bearing-based
spherical great-circle midpoint, on `(lng, lat)` pairs in degrees. -/
noncomputable def sphericalMidpoint (c1 c2 : ℝ × ℝ) : ℝ × ℝ :=
  let lat1 := radians c1.2
  let lng1 := radians c1.1
  let lat2 := radians c2.2
  let lng2 := radians c2.1
  let dLng := lng2 - lng1
  let Bx := Real.cos lat2 * Real.cos dLng
  let By := Real.cos lat2 * Real.sin dLng
  let lat3 := atan2 (Real.sin lat1 + Real.sin lat2)
    (Real.sqrt ((Real.cos lat1 + Bx) * (Real.cos lat1 + Bx) + By * By))
  let lng3 := lng1 + atan2 By (Real.cos lat1 + Bx)
  (degrees lng3, degrees lat3)

/-- `_calculate_center_point` (`none` models the `ValueError` raised on an
empty input): identity for one point, spherical midpoint for two,
arithmetic mean beyond. -/
noncomputable def calculate_center_point :
    List (ℝ × ℝ) → Option (ℝ × ℝ)
  | [] => none
  | [c] => some c
  | [c1, c2] => some (sphericalMidpoint c1 c2)
  | coordinates =>
      some ((coordinates.map Prod.fst).sum / coordinates.length,
            (coordinates.map Prod.snd).sum / coordinates.length)

/-! # Theorems about the claims -/

theorem cacheInsert_below_capacity {V : Type} (maxSize : ℕ)
    (cache : List (String × V)) (k : String) (v : V)
    (h : cache.length < maxSize) :
    cacheInsert maxSize cache k v = cache ++ [(k, v)] := by
  unfold cacheInsert
  rw [if_neg (by omega)]

/-- C7: for the geocode cache (capacity `GEOCODE_CACHE_MAX = 30`) and the
POI cache (capacity `POI_CACHE_MAX = 15`): an insertion never pushes the
entry count past the capacity; below capacity nothing is evicted; at
capacity exactly the single oldest-inserted entry (the head of the
insertion-ordered list) is removed before the new entry is appended, and
every more-recently-inserted entry survives. -/
theorem cache_capacity_and_fifo_eviction :
    ∀ (V : Type) (cache : List (String × V)) (k : String) (v : V),
      ((cache.length ≤ GEOCODE_CACHE_MAX →
          (cacheInsert GEOCODE_CACHE_MAX cache k v).length ≤
            GEOCODE_CACHE_MAX) ∧
        (cache.length < GEOCODE_CACHE_MAX →
          cacheInsert GEOCODE_CACHE_MAX cache k v = cache ++ [(k, v)]) ∧
        (cache.length = GEOCODE_CACHE_MAX →
          cacheInsert GEOCODE_CACHE_MAX cache k v =
            cache.tail ++ [(k, v)])) ∧
      ((cache.length ≤ POI_CACHE_MAX →
          (cacheInsert POI_CACHE_MAX cache k v).length ≤ POI_CACHE_MAX) ∧
        (cache.length < POI_CACHE_MAX →
          cacheInsert POI_CACHE_MAX cache k v = cache ++ [(k, v)]) ∧
        (cache.length = POI_CACHE_MAX →
          cacheInsert POI_CACHE_MAX cache k v = cache.tail ++ [(k, v)])) := by
  intro V cache k v
  refine ⟨⟨?_, ?_, ?_⟩, ?_, ?_, ?_⟩
  · exact cacheInsert_length_le GEOCODE_CACHE_MAX (by decide) cache k v
  · exact cacheInsert_below_capacity GEOCODE_CACHE_MAX cache k v
  · exact cacheInsert_at_capacity GEOCODE_CACHE_MAX cache k v
  · exact cacheInsert_length_le POI_CACHE_MAX (by decide) cache k v
  · exact cacheInsert_below_capacity POI_CACHE_MAX cache k v
  · exact cacheInsert_at_capacity POI_CACHE_MAX cache k v

/-- C7 witness: a full geocode cache (30 entries) and a full POI cache
(15 entries), with the eviction behaviour checked concretely. -/
theorem cache_capacity_and_fifo_eviction_witness :
    ((cacheInsert GEOCODE_CACHE_MAX (List.replicate 30 ("旧", 0)) "新" 1).length
        ≤ GEOCODE_CACHE_MAX ∧
      cacheInsert GEOCODE_CACHE_MAX (List.replicate 30 ("旧", 0)) "新" 1 =
        (List.replicate 30 ("旧", 0)).tail ++ [("新", 1)]) ∧
    ((cacheInsert POI_CACHE_MAX (List.replicate 15 ("旧", 0)) "新" 1).length
        ≤ POI_CACHE_MAX ∧
      cacheInsert POI_CACHE_MAX (List.replicate 15 ("旧", 0)) "新" 1 =
        (List.replicate 15 ("旧", 0)).tail ++ [("新", 1)]) := by
  have h30 := cache_capacity_and_fifo_eviction ℕ
    (List.replicate 30 ("旧", 0)) "新" 1
  have h15 := cache_capacity_and_fifo_eviction ℕ
    (List.replicate 15 ("旧", 0)) "新" 1
  exact ⟨⟨h30.1.1 (by simp [GEOCODE_CACHE_MAX]),
          h30.1.2.2 (by simp [GEOCODE_CACHE_MAX])⟩,
         ⟨h15.2.1 (by simp [POI_CACHE_MAX]),
          h15.2.2.2 (by simp [POI_CACHE_MAX])⟩⟩

/-- C10: a geocode-cache hit on the raw input address returns the cached
entry and leaves the whole state — both caches, including their insertion
order — unchanged. -/
theorem geocode_cache_hit_frame :
    ∀ (oracle_poi oracle_geo : String → Option GeoResult)
      (api_key_ok : Bool) (st : GeoState) (address : String) (r : GeoResult),
      st.geocode_cache.lookup address = some r →
      geocode oracle_poi oracle_geo api_key_ok st address = (some r, st) := by
  intro oracle_poi oracle_geo api_key_ok st address r h
  unfold geocode
  rw [h]

/-- C10 witness: a concrete one-entry cache hit. -/
theorem geocode_cache_hit_frame_witness :
    geocode (fun _ => none) (fun _ => none) true
      { geocode_cache := [("北大", { location := "116.3,39.9" })],
        poi_cache := [] } "北大" =
      (some { location := "116.3,39.9" },
       { geocode_cache := [("北大", { location := "116.3,39.9" })],
         poi_cache := [] }) :=
  geocode_cache_hit_frame (fun _ => none) (fun _ => none) true
    { geocode_cache := [("北大", { location := "116.3,39.9" })],
      poi_cache := [] } "北大" { location := "116.3,39.9" } (by rfl)

/-! ## C3 / C9: the fallback ladder -/

/-- A search world where the category-coded rung-1 search finds nothing
but the bare-keyword rung-2 retry finds one café. -/
def rung2World : String → ℕ → String → List Venue :=
  fun kw _radius types =>
    if kw = "咖啡馆" ∧ types = "" then [{ name := "漫咖啡" }] else []

/-- C3 counterexample: with `rung2World`, rung 1 (keyword "咖啡馆" +
category code "050500") yields zero venues and rung 2 (bare keyword)
yields a venue, yet the result carries `fallback_used = false` and no
fallback keyword — the claim's `fallbackUsed=true` for every rung beyond
the first is false. -/
theorem fallback_rung2_not_flagged_counterexample :
    rung2World "咖啡馆" 5000 "050500" = [] ∧
    rung2World "咖啡馆" 5000 "" ≠ [] ∧
    (searchWithFallback rung2World "咖啡馆" "050500").places ≠ [] ∧
    (searchWithFallback rung2World "咖啡馆" "050500").fallback_used = false ∧
    (searchWithFallback rung2World "咖啡馆" "050500").fallback_keyword =
      none := by
  refine ⟨rfl, by decide, by decide, ?_, ?_⟩ <;> rfl

/-- C3 amended: the rung-2 bare-keyword retry returns its venues with
`fallback_used = false` and no keyword recorded; only the rungs that
substitute a different category — rung 3 (the fallback category list) and
rung 4 (the widened "餐厅" search) — flag `fallback_used = true` and
record the keyword that actually produced the venues. -/
theorem fallback_flagging_amended :
    ∀ (search : String → ℕ → String → List Venue)
      (keywords place_type : String),
      (search keywords 5000 place_type = [] →
        search keywords 5000 "" ≠ [] →
        searchWithFallback search keywords place_type =
          ⟨search keywords 5000 "", false, none⟩) ∧
      (∀ kw r, search keywords 5000 place_type = [] →
        search keywords 5000 "" = [] →
        fallbackLoop search keywords fallback_categories = some (kw, r) →
        searchWithFallback search keywords place_type = ⟨r, true, some kw⟩) ∧
      (search keywords 5000 place_type = [] →
        search keywords 5000 "" = [] →
        fallbackLoop search keywords fallback_categories = none →
        search "餐厅" 50000 "" ≠ [] →
        searchWithFallback search keywords place_type =
          ⟨search "餐厅" 50000 "", true, some "餐厅（扩大范围）"⟩) := by
  intro search keywords place_type
  refine ⟨?_, ?_, ?_⟩
  · intro h1 h2
    unfold searchWithFallback
    rw [if_neg (by simp [h1]), if_pos h2]
  · intro kw r h1 h2 h3
    unfold searchWithFallback
    rw [if_neg (by simp [h1]), if_neg (by simp [h2]), h3]
  · intro h1 h2 h3 h4
    unfold searchWithFallback
    rw [if_neg (by simp [h1]), if_neg (by simp [h2]), h3]
    simp only [if_pos h4]

/-- C3 witness: the amended behaviour at the concrete `rung2World`. -/
theorem fallback_flagging_amended_witness :
    searchWithFallback rung2World "咖啡馆" "050500" =
      ⟨rung2World "咖啡馆" 5000 "", false, none⟩ :=
  (fallback_flagging_amended rung2World "咖啡馆" "050500").1 rfl (by decide)

/-- `fallbackLoop` finds exactly the first category of the list — the
original keyword excluded — whose search is non-empty, paired with that
search's venues. -/
theorem fallbackLoop_eq_find? (search : String → ℕ → String → List Venue)
    (keywords : String) (l : List String) :
    fallbackLoop search keywords l =
      ((l.filter (fun c => c ≠ keywords)).find?
        (fun c => search c 5000 "" ≠ [])).map
        (fun kw => (kw, search kw 5000 "")) := by
  induction l with
  | nil => rfl
  | cons kw rest ih =>
      by_cases hk : kw = keywords
      · subst hk
        simp [fallbackLoop, ih]
      · by_cases hr : search kw 5000 "" = []
        · simp [fallbackLoop, hk, hr, ih]
        · simp [fallbackLoop, hk, hr]

/-- C9: when rungs 1 and 2 both come back empty, the engine walks the
fixed fallback list 餐厅, 咖啡馆, 商场, 美食 in order, skips a category
identical to the original keyword, and returns — flagged, with the
keyword recorded — the venues of the first category whose search is
non-empty. -/
theorem fallback_categories_first_nonempty :
    ∀ (search : String → ℕ → String → List Venue)
      (keywords place_type kw : String),
      search keywords 5000 place_type = [] →
      search keywords 5000 "" = [] →
      (fallback_categories.filter (fun c => c ≠ keywords)).find?
          (fun c => search c 5000 "" ≠ []) = some kw →
      kw ≠ keywords ∧
      (searchWithFallback search keywords place_type).places =
        search kw 5000 "" ∧
      (searchWithFallback search keywords place_type).fallback_used =
        true ∧
      (searchWithFallback search keywords place_type).fallback_keyword =
        some kw := by
  intro search keywords place_type kw h1 h2 hfind
  have hkw : kw ≠ keywords := by
    have hmem := List.find?_some hfind
    have hmem' := List.mem_filter.mp (List.mem_of_find?_eq_some hfind)
    simpa using hmem'.2
  have hloop : fallbackLoop search keywords fallback_categories =
      some (kw, search kw 5000 "") := by
    rw [fallbackLoop_eq_find? search keywords fallback_categories, hfind]
    rfl
  have := (fallback_flagging_amended search keywords place_type).2.1
    kw (search kw 5000 "") h1 h2 hloop
  rw [this]
  exact ⟨hkw, rfl, rfl, rfl⟩

/-- A search world that is empty everywhere except for the "餐厅"
fallback category. -/
def rung3World : String → ℕ → String → List Venue :=
  fun kw _radius _types =>
    if kw = "餐厅" then [{ name := "全聚德" }] else []

/-- C9 witness: keyword "酒吧" finds nothing at rungs 1 and 2; the first
fallback category 餐厅 wins and is recorded. -/
theorem fallback_categories_first_nonempty_witness :
    ("餐厅" : String) ≠ "酒吧" ∧
    (searchWithFallback rung3World "酒吧" "080601").places =
      rung3World "餐厅" 5000 "" ∧
    (searchWithFallback rung3World "酒吧" "080601").fallback_used = true ∧
    (searchWithFallback rung3World "酒吧" "080601").fallback_keyword =
      some "餐厅" :=
  fallback_categories_first_nonempty rung3World "酒吧" "080601" "餐厅"
    (by decide) (by decide) (by decide)

/-! ## C1: the distance-score curve -/

theorem distance_decay_score_le_25 (d : ℝ) : distance_decay_score d ≤ 25 := by
  unfold distance_decay_score
  by_cases h1 : d ≤ 500
  · rw [if_pos h1]
  · rw [if_neg h1]
    by_cases h2 : d ≤ 2500
    · rw [if_pos h2]
      have ht : (0 : ℝ) ≤ (d - 500) / 2000 := by
        apply div_nonneg <;> nlinarith [not_le.mp h1]
      have hpow : (0 : ℝ) ≤ ((d - 500) / 2000) ^ (1.5 : ℝ) :=
        Real.rpow_nonneg ht _
      nlinarith
    · rw [if_neg h2]; norm_num

theorem distance_decay_score_ge_5 (d : ℝ) : 5 ≤ distance_decay_score d := by
  unfold distance_decay_score
  by_cases h1 : d ≤ 500
  · rw [if_pos h1]; norm_num
  · rw [if_neg h1]
    by_cases h2 : d ≤ 2500
    · rw [if_pos h2]
      have ht : (0 : ℝ) ≤ (d - 500) / 2000 := by
        apply div_nonneg <;> nlinarith [not_le.mp h1]
      have ht1 : (d - 500) / 2000 ≤ 1 := by
        rw [div_le_one (by norm_num)]; nlinarith
      have hpow : ((d - 500) / 2000) ^ (1.5 : ℝ) ≤ 1 :=
        Real.rpow_le_one ht ht1 (by norm_num)
      nlinarith
    · rw [if_neg h2]

theorem distance_decay_score_mid (d : ℝ) (h1 : 500 < d) (h2 : d ≤ 2500) :
    distance_decay_score d =
      25 * (1 - ((d - 500) / 2000) ^ (1.5 : ℝ) * 0.8) := by
  unfold distance_decay_score
  rw [if_neg (not_le.mpr h1), if_pos h2]

/-- C1: the distance component is monotonically non-increasing in the
distance `d`; it is 25 for `d ≤ 500`, follows the power-1.5 decay curve
`25·(1 − 0.8·((d−500)/2000)^1.5)` — never dropping below the 20 % floor
of 5 points — for `500 < d ≤ 2500`, and is a flat 5 for `d > 2500`. -/
theorem distance_score_monotone_and_shape :
    (∀ d₁ d₂ : ℝ, d₁ ≤ d₂ →
      distance_decay_score d₂ ≤ distance_decay_score d₁) ∧
    (∀ d : ℝ, d ≤ 500 → distance_decay_score d = 25) ∧
    (∀ d : ℝ, 500 < d → d ≤ 2500 →
      distance_decay_score d =
        25 * (1 - ((d - 500) / 2000) ^ (1.5 : ℝ) * 0.8) ∧
      5 ≤ distance_decay_score d) ∧
    (∀ d : ℝ, 2500 < d → distance_decay_score d = 5) := by
  have hflat25 : ∀ d : ℝ, d ≤ 500 → distance_decay_score d = 25 := by
    intro d h; unfold distance_decay_score; rw [if_pos h]
  have hflat5 : ∀ d : ℝ, 2500 < d → distance_decay_score d = 5 := by
    intro d h
    unfold distance_decay_score
    rw [if_neg (by nlinarith), if_neg (not_le.mpr h)]
  refine ⟨?_, hflat25, ?_, hflat5⟩
  · intro d₁ d₂ hle
    by_cases h1 : d₁ ≤ 500
    · rw [hflat25 d₁ h1]; exact distance_decay_score_le_25 d₂
    · by_cases h2 : d₁ ≤ 2500
      · by_cases h3 : d₂ ≤ 2500
        · rw [distance_decay_score_mid d₁ (not_le.mp h1) h2,
            distance_decay_score_mid d₂ (by nlinarith [not_le.mp h1]) h3]
          have ht1 : (0 : ℝ) ≤ (d₁ - 500) / 2000 := by
            apply div_nonneg <;> nlinarith [not_le.mp h1]
          have htle : (d₁ - 500) / 2000 ≤ (d₂ - 500) / 2000 := by
            gcongr
          have hpow : ((d₁ - 500) / 2000) ^ (1.5 : ℝ) ≤
              ((d₂ - 500) / 2000) ^ (1.5 : ℝ) :=
            Real.rpow_le_rpow ht1 htle (by norm_num)
          nlinarith
        · rw [hflat5 d₂ (not_le.mp h3)]
          exact distance_decay_score_ge_5 d₁
      · rw [hflat5 d₁ (not_le.mp h2), hflat5 d₂ (by nlinarith [not_le.mp h2])]
  · intro d h1 h2
    exact ⟨distance_decay_score_mid d h1 h2, distance_decay_score_ge_5 d⟩

/-- C1 witness: the curve at concrete distances 300, 1000, 2000, 3000. -/
theorem distance_score_monotone_and_shape_witness :
    distance_decay_score 2000 ≤ distance_decay_score 600 ∧
    distance_decay_score 300 = 25 ∧
    (distance_decay_score 1000 =
        25 * (1 - ((1000 - 500 : ℝ) / 2000) ^ (1.5 : ℝ) * 0.8) ∧
      5 ≤ distance_decay_score 1000) ∧
    distance_decay_score 3000 = 5 :=
  ⟨distance_score_monotone_and_shape.1 600 2000 (by norm_num),
   distance_score_monotone_and_shape.2.1 300 (by norm_num),
   distance_score_monotone_and_shape.2.2.1 1000 (by norm_num) (by norm_num),
   distance_score_monotone_and_shape.2.2.2 3000 (by norm_num)⟩

/-! ## C2: invariants of the three-tier requirement matcher -/

/-- Invariant carried through the three matching layers: `matched` is
duplicate-free, `confidence_map` records exactly the matched requirements
in order, and confidence "high" only ever comes from a Layer-1 hit. -/
def ReqInv (place : Venue) (st : MatchState) : Prop :=
  st.matched.Nodup ∧
  st.confidence_map.map Prod.fst = st.matched ∧
  (∀ req c, (req, c) ∈ st.confidence_map → c = "high" →
    layer1Hit place req = true)

theorem foldl_matchstate_inv {f : MatchState → String → MatchState}
    {P : MatchState → Prop} (hf : ∀ st r, P st → P (f st r)) :
    ∀ (l : List String) (st : MatchState), P st → P (l.foldl f st) := by
  intro l
  induction l with
  | nil => intro st h; exact h
  | cons r rest ih => intro st h; exact ih (f st r) (hf st r h)

theorem foldl_conf_mono {f : MatchState → String → MatchState}
    (hf : ∀ st r x, x ∈ st.confidence_map → x ∈ (f st r).confidence_map) :
    ∀ (l : List String) (st : MatchState) (x), x ∈ st.confidence_map →
      x ∈ (l.foldl f st).confidence_map := by
  intro l
  induction l with
  | nil => intro st x h; exact h
  | cons r rest ih => intro st x h; exact ih (f st r) x (hf st r x h)

theorem layer1_step_conf_mono (place : Venue) (st : MatchState)
    (r : String) (x : String × String) (hx : x ∈ st.confidence_map) :
    x ∈ (layer1_step place st r).confidence_map := by
  unfold layer1_step
  split
  · exact hx
  · split
    · simp only [List.mem_append]; exact Or.inl hx
    · exact hx

theorem layer2_step_conf_mono (features : List (String × ℚ))
    (st : MatchState) (r : String) (x : String × String)
    (hx : x ∈ st.confidence_map) :
    x ∈ (layer2_step features st r).confidence_map := by
  unfold layer2_step
  split
  · exact hx
  · split
    · simp only [List.mem_append]; exact Or.inl hx
    · exact hx

theorem layer3_step_conf_mono (features : List (String × ℚ))
    (st : MatchState) (r : String) (x : String × String)
    (hx : x ∈ st.confidence_map) :
    x ∈ (layer3_step features st r).confidence_map := by
  unfold layer3_step
  split
  · exact hx
  · split
    · simp only [List.mem_append]; exact Or.inl hx
    · exact hx

theorem layer1_step_inv (place : Venue) (st : MatchState) (r : String)
    (h : ReqInv place st) : ReqInv place (layer1_step place st r) := by
  obtain ⟨hnd, hmap, hhigh⟩ := h
  unfold layer1_step
  split
  · exact ⟨hnd, hmap, hhigh⟩
  · rename_i hcont
    split
    · rename_i hhit
      refine ⟨?_, ?_, ?_⟩
      · exact hnd.append (List.nodup_singleton _)
          (List.disjoint_singleton.mpr hcont)
      · simp [hmap]
      · intro req c hc hch
        rcases List.mem_append.mp hc with h1 | h2
        · exact hhigh req c h1 hch
        · simp only [List.mem_singleton, Prod.mk.injEq] at h2
          rw [h2.1]; exact hhit
    · exact ⟨hnd, hmap, hhigh⟩

theorem layer2_step_inv (place : Venue) (features : List (String × ℚ))
    (st : MatchState) (r : String) (h : ReqInv place st) :
    ReqInv place (layer2_step features st r) := by
  obtain ⟨hnd, hmap, hhigh⟩ := h
  unfold layer2_step
  split
  · exact ⟨hnd, hmap, hhigh⟩
  · rename_i hcont
    split
    · refine ⟨?_, ?_, ?_⟩
      · exact hnd.append (List.nodup_singleton _)
          (List.disjoint_singleton.mpr hcont)
      · simp [hmap]
      · intro req c hc hch
        rcases List.mem_append.mp hc with h1 | h2
        · exact hhigh req c h1 hch
        · simp only [List.mem_singleton, Prod.mk.injEq] at h2
          rw [h2.2] at hch
          exact absurd hch (by decide)
    · exact ⟨hnd, hmap, hhigh⟩

theorem layer3_step_inv (place : Venue) (features : List (String × ℚ))
    (st : MatchState) (r : String) (h : ReqInv place st) :
    ReqInv place (layer3_step features st r) := by
  obtain ⟨hnd, hmap, hhigh⟩ := h
  unfold layer3_step
  split
  · exact ⟨hnd, hmap, hhigh⟩
  · rename_i hcont
    split
    · refine ⟨?_, ?_, ?_⟩
      · exact hnd.append (List.nodup_singleton _)
          (List.disjoint_singleton.mpr hcont)
      · simp [hmap]
      · intro req c hc hch
        rcases List.mem_append.mp hc with h1 | h2
        · exact hhigh req c h1 hch
        · simp only [List.mem_singleton, Prod.mk.injEq] at h2
          rw [h2.2] at hch
          exact absurd hch (by decide)
    · exact ⟨hnd, hmap, hhigh⟩

/-- Requirements already matched during Layer 1 always carry "high". -/
def HighRecorded (st : MatchState) : Prop :=
  ∀ req, req ∈ st.matched → (req, "high") ∈ st.confidence_map

theorem layer1_step_highrec (place : Venue) (st : MatchState) (r : String)
    (h : HighRecorded st) : HighRecorded (layer1_step place st r) := by
  unfold layer1_step
  split
  · exact h
  · split
    · intro req hreq
      simp only [List.mem_append, List.mem_singleton] at hreq ⊢
      rcases hreq with h1 | h2
      · exact Or.inl (h req h1)
      · exact Or.inr (by rw [h2])
    · exact h

/-- Layer-1 completeness: every recognized requirement with a Layer-1 hit
ends up recorded with confidence "high" by the Layer-1 fold. -/
theorem layer1_fold_complete (place : Venue) :
    ∀ (l : List String) (st : MatchState), HighRecorded st →
      ∀ req, req ∈ l → layer1Hit place req = true →
        (req, "high") ∈ (l.foldl (layer1_step place) st).confidence_map := by
  intro l
  induction l with
  | nil => intro st _ req h; exact absurd h (List.not_mem_nil req)
  | cons r rest ih =>
      intro st hst req hreq hhit
      simp only [List.foldl_cons]
      rcases List.mem_cons.mp hreq with h1 | h2
      · subst h1
        have hmem : (req, "high") ∈ (layer1_step place st req).confidence_map := by
          unfold layer1_step
          by_cases hcont : req ∈ st.matched
          · rw [if_pos hcont]
            exact hst req hcont
          · rw [if_neg hcont, if_pos hhit]
            simp
        exact foldl_conf_mono (layer1_step_conf_mono place) rest _ _ hmem
      · exact ih (layer1_step place st r)
          (layer1_step_highrec place st r hst) req h2 hhit

theorem layer2_inv (place : Venue) (user_reqs : List String)
    (st : MatchState) (h : ReqInv place st) :
    ReqInv place (layer2 place user_reqs st) := by
  unfold layer2
  split
  · exact foldl_matchstate_inv
      (fun st r => layer2_step_inv place _ st r) user_reqs st h
  · exact h

theorem layer3_inv (place : Venue) (user_reqs : List String)
    (st : MatchState) (h : ReqInv place st) :
    ReqInv place (layer3 place user_reqs st) := by
  unfold layer3
  split
  · exact foldl_matchstate_inv
      (fun st r => layer3_step_inv place _ st r) user_reqs st h
  · exact h

theorem layer2_conf_mono (place : Venue) (user_reqs : List String)
    (st : MatchState) (x : String × String) (hx : x ∈ st.confidence_map) :
    x ∈ (layer2 place user_reqs st).confidence_map := by
  unfold layer2
  split
  · exact foldl_conf_mono (fun st r => layer2_step_conf_mono _ st r)
      user_reqs st x hx
  · exact hx

theorem layer3_conf_mono (place : Venue) (user_reqs : List String)
    (st : MatchState) (x : String × String) (hx : x ∈ st.confidence_map) :
    x ∈ (layer3 place user_reqs st).confidence_map := by
  unfold layer3
  split
  · exact foldl_conf_mono (fun st r => layer3_step_conf_mono _ st r)
      user_reqs st x hx
  · exact hx

/-- C2: for every venue and free-text requirement input, the matched list
is duplicate-free (each recognized requirement appears at most once), the
confidence map records exactly the matched requirements, a recognized
requirement with a Tier-1 tag/field hit is recorded with confidence
"high", and confidence "high" is only ever produced by a Tier-1 hit — so
a requirement matched only at Tier 3 is never "high" (it gets "low"), the
higher tier short-circuiting the lower ones. -/
theorem requirement_match_invariants :
    ∀ (place : Venue) (user_requirements : String),
      (calculate_requirement_score place user_requirements).2.1.Nodup ∧
      (calculate_requirement_score place user_requirements).2.2.map
          Prod.fst =
        (calculate_requirement_score place user_requirements).2.1 ∧
      (∀ req, req ∈ recognized_requirements user_requirements →
        layer1Hit place req = true →
        (req, "high") ∈
          (calculate_requirement_score place user_requirements).2.2) ∧
      (∀ req c,
        (req, c) ∈ (calculate_requirement_score place user_requirements).2.2 →
        c = "high" → layer1Hit place req = true) := by
  intro place user_requirements
  unfold calculate_requirement_score
  by_cases hempty : user_requirements = ""
  · rw [if_pos hempty]
    subst hempty
    refine ⟨List.nodup_nil, rfl, ?_, ?_⟩
    · intro req hreq
      have hnil : recognized_requirements "" = [] := by rfl
      rw [hnil] at hreq
      exact absurd hreq (List.not_mem_nil req)
    · intro req c hc
      exact absurd hc (List.not_mem_nil _)
  · rw [if_neg hempty]
    by_cases hrec : recognized_requirements user_requirements = []
    · rw [if_pos hrec]
      refine ⟨List.nodup_nil, rfl, ?_, ?_⟩
      · intro req hreq
        rw [hrec] at hreq
        exact absurd hreq (List.not_mem_nil req)
      · intro req c hc
        exact absurd hc (List.not_mem_nil _)
    · rw [if_neg hrec]
      have hinv : ReqInv place
          (layer3 place (recognized_requirements user_requirements)
            (layer2 place (recognized_requirements user_requirements)
              ((recognized_requirements user_requirements).foldl
                (layer1_step place) {}))) := by
        apply layer3_inv
        apply layer2_inv
        exact foldl_matchstate_inv (layer1_step_inv place) _ _
          ⟨List.nodup_nil, rfl, fun req c hc _ =>
            absurd hc (List.not_mem_nil _)⟩
      refine ⟨hinv.1, hinv.2.1, ?_, hinv.2.2⟩
      intro req hreq hhit
      apply layer3_conf_mono
      apply layer2_conf_mono
      exact layer1_fold_complete place
        (recognized_requirements user_requirements) {}
        (fun req h => absurd h (List.not_mem_nil req)) req hreq hhit

/-- C2 witness: a venue tagged "免费停车" with requirements text
"停车 安静": 停车 is recognized, hits Tier 1, and is recorded "high";
the matched list is duplicate-free. -/
theorem requirement_match_invariants_witness :
    (calculate_requirement_score
      { name := "星巴克国贸店", tag := "免费停车" } "停车 安静").2.1.Nodup ∧
    ("停车", "high") ∈
      (calculate_requirement_score
        { name := "星巴克国贸店", tag := "免费停车" } "停车 安静").2.2 :=
  ⟨(requirement_match_invariants
      { name := "星巴克国贸店", tag := "免费停车" } "停车 安静").1,
   (requirement_match_invariants
      { name := "星巴克国贸店", tag := "免费停车" } "停车 安静").2.2.1 "停车"
      (by decide) (by decide)⟩

/-! ## C4: the `min_rating` hard filter reads the wrong field

`_rank_places` filters on `float(p.get("rating", 0) or 0)` — the
top-level `"rating"` key — while `_calculate_base_score` reads the
venue's quality rating from `biz_ext["rating"]`. Amap POIs carry the
rating only inside `biz_ext`, so with `min_rating > 0` a venue whose
(biz_ext) rating is far above the threshold is nevertheless dropped. -/

/-- A venue with quality rating 4.8 (in `biz_ext`) and, as delivered by
the upstream, no top-level `"rating"` key. -/
def highRatedVenue : Venue :=
  { name := "漫咖啡(国贸店)", biz_ext_rating := 24 / 5 }

/-- C4 (code bug): with `min_rating = 4`, the venue with quality rating
4.8 — which the claim says must survive to scoring, since 4.8 ≥ 4 is the
very rating the base-quality score uses — is excluded by the pre-scoring
hard filter, and the ranked output is empty. -/
theorem min_rating_filter_reads_wrong_field :
    (4 : ℚ) ≤ base_score_rating highRatedVenue ∧
    calculate_base_score highRatedVenue = 144 / 5 ∧
    rank_places [highRatedVenue] (0, 0) "" "" 4 100000 = [] := by
  refine ⟨?_, ?_, ?_⟩
  · norm_num [base_score_rating, highRatedVenue]
  · norm_num [calculate_base_score, base_score_rating, highRatedVenue,
      min_eq_left]
  · unfold rank_places
    norm_num [highRatedVenue]

/-! ## C6: the diversity adjustment, occurrence by occurrence -/

theorem updateSeen_lookup_self (seen : List (String × ℕ)) (b : String)
    (n : ℕ) : (updateSeen seen b n).lookup b = some n := by
  induction seen with
  | nil => simp [updateSeen, List.lookup]
  | cons kv rest ih =>
      obtain ⟨k, v⟩ := kv
      by_cases hk : k = b
      · subst hk
        simp [updateSeen, List.lookup]
      · simp only [updateSeen, if_neg hk, List.lookup]
        rw [beq_eq_false_iff_ne.mpr (Ne.symm hk)]
        exact ih

theorem updateSeen_lookup_ne (seen : List (String × ℕ)) (b b' : String)
    (n : ℕ) (h : b' ≠ b) :
    (updateSeen seen b n).lookup b' = seen.lookup b' := by
  induction seen with
  | nil =>
      simp only [updateSeen, List.lookup]
      rw [beq_eq_false_iff_ne.mpr h]
  | cons kv rest ih =>
      obtain ⟨k, v⟩ := kv
      by_cases hk : k = b
      · subst hk
        simp only [updateSeen, if_pos rfl, List.lookup]
        rw [beq_eq_false_iff_ne.mpr h]
      · simp only [updateSeen, if_neg hk, List.lookup, ih]

theorem diversityLoop_length (counts : String → ℕ) :
    ∀ (l : List ScoredPlace) (seen : List (String × ℕ)),
      (diversityLoop counts seen l).length = l.length := by
  intro l
  induction l with
  | nil => intro seen; rfl
  | cons p rest ih =>
      intro seen
      unfold diversityLoop
      by_cases hb : 1 < counts (brand_name p.place.name)
      · rw [if_pos hb]
        simp [ih]
      · rw [if_neg hb]
        simp [ih]

/-- `seen_count` the loop will use for position `i`: brand occurrences
already recorded in `seen` plus same-brand occurrences strictly before
`i`. -/
def priorCount (seen : List (String × ℕ)) (l : List ScoredPlace) (i : ℕ)
    (b : String) : ℕ :=
  (seen.lookup b).getD 0 +
    (l.take i).countP (fun r => brand_name r.place.name = b)

theorem diversityLoop_get? (counts : String → ℕ) :
    ∀ (l : List ScoredPlace) (seen : List (String × ℕ)) (i : ℕ),
      (diversityLoop counts seen l).get? i =
        (l.get? i).map (fun p =>
          if 1 < counts (brand_name p.place.name) then
            applyPenalty p (priorCount seen l i (brand_name p.place.name))
          else p) := by
  intro l
  induction l with
  | nil => intro seen i; rfl
  | cons p₀ rest ih =>
      intro seen i
      unfold diversityLoop
      by_cases hb0 : 1 < counts (brand_name p₀.place.name)
      · rw [if_pos hb0]
        match i with
        | 0 =>
            simp only [List.get?_cons_zero, Option.map_some']
            rw [if_pos hb0]
            simp [priorCount]
        | j + 1 =>
            simp only [List.get?_cons_succ]
            rw [ih _ j]
            rcases hrj : rest.get? j with _ | p
            · rfl
            · simp only [Option.map_some']
              by_cases hb : 1 < counts (brand_name p.place.name)
              · rw [if_pos hb, if_pos hb]
                congr 1
                unfold priorCount
                by_cases hbb : brand_name p.place.name =
                    brand_name p₀.place.name
                · rw [hbb, updateSeen_lookup_self]
                  simp only [Option.getD_some, List.take_succ_cons,
                    List.countP_cons]
                  rw [if_pos (by simp)]
                  congr 1
                  omega
                · rw [updateSeen_lookup_ne _ _ _ _ hbb]
                  have hd : decide (brand_name p₀.place.name =
                      brand_name p.place.name) = false :=
                    decide_eq_false (fun h => hbb h.symm)
                  simp only [List.take_succ_cons, List.countP_cons, hd]
                  simp
              · rw [if_neg hb, if_neg hb]
      · rw [if_neg hb0]
        match i with
        | 0 =>
            simp only [List.get?_cons_zero, Option.map_some']
            rw [if_neg hb0]
        | j + 1 =>
            simp only [List.get?_cons_succ]
            rw [ih _ j]
            rcases hrj : rest.get? j with _ | p
            · rfl
            · simp only [Option.map_some']
              by_cases hb : 1 < counts (brand_name p.place.name)
              · rw [if_pos hb, if_pos hb]
                congr 1
                unfold priorCount
                have hbb : brand_name p.place.name ≠
                    brand_name p₀.place.name := by
                  intro hcontra
                  rw [hcontra] at hb
                  exact hb0 hb
                have hd : decide (brand_name p₀.place.name =
                    brand_name p.place.name) = false :=
                  decide_eq_false (fun h => hbb h.symm)
                simp only [List.take_succ_cons, List.countP_cons, hd]
                simp
              · rw [if_neg hb, if_neg hb]

theorem mem_insertDesc (v x : ScoredPlace) :
    ∀ l : List ScoredPlace, x ∈ insertDesc v l ↔ x = v ∨ x ∈ l := by
  intro l
  induction l with
  | nil => simp [insertDesc]
  | cons y ys ih =>
      unfold insertDesc
      by_cases hc : y.score ≤ v.score
      · rw [if_pos hc]
        simp
      · rw [if_neg hc]
        simp only [List.mem_cons, ih]
        tauto

theorem sortDesc_mem (x : ScoredPlace) :
    ∀ l : List ScoredPlace, x ∈ sortDesc l ↔ x ∈ l := by
  intro l
  induction l with
  | nil => simp [sortDesc]
  | cons y ys ih =>
      unfold sortDesc
      rw [mem_insertDesc]
      simp [ih]

theorem insertDesc_sorted (v : ScoredPlace) :
    ∀ l : List ScoredPlace,
      List.Sorted (fun a b : ScoredPlace => b.score ≤ a.score) l →
      List.Sorted (fun a b : ScoredPlace => b.score ≤ a.score)
        (insertDesc v l) := by
  intro l
  induction l with
  | nil =>
      intro _
      simp [insertDesc]
  | cons y ys ih =>
      intro h
      rw [List.sorted_cons] at h
      unfold insertDesc
      by_cases hc : y.score ≤ v.score
      · rw [if_pos hc]
        rw [List.sorted_cons]
        refine ⟨?_, List.sorted_cons.mpr h⟩
        intro b hb
        rcases List.mem_cons.mp hb with h1 | h2
        · rw [h1]; exact hc
        · exact le_trans (h.1 b h2) hc
      · rw [if_neg hc]
        rw [List.sorted_cons]
        refine ⟨?_, ih h.2⟩
        intro b hb
        rcases (mem_insertDesc v b ys).mp hb with h1 | h2
        · rw [h1]
          exact le_of_lt (lt_of_not_le hc)
        · exact h.1 b h2

theorem sortDesc_sorted :
    ∀ l : List ScoredPlace,
      List.Sorted (fun a b : ScoredPlace => b.score ≤ a.score)
        (sortDesc l) := by
  intro l
  induction l with
  | nil => simp [sortDesc]
  | cons y ys ih => exact insertDesc_sorted y (sortDesc ys) ih

/-- C6: the diversity adjustment leaves the first occurrence of each
normalized brand untouched (same score, no penalty recorded), subtracts
exactly `min(15, (n−1)·5)` from the n-th occurrence (n ≥ 2) and records
that penalty — so the second occurrence loses exactly 5 — and the list
positions are otherwise preserved (same length, occurrences counted in
list order); afterwards the ranking pipeline's re-sort leaves the
adjusted list sorted by score descending. -/
theorem diversity_penalty_per_occurrence :
    (∀ places : List ScoredPlace,
      (apply_diversity_adjustment places).length = places.length) ∧
    (∀ (places : List ScoredPlace) (i : ℕ) (hi : i < places.length)
      (n : ℕ),
      n = (places.take (i + 1)).countP
        (fun r => brand_name r.place.name =
          brand_name (places.get ⟨i, hi⟩).place.name) →
      (n = 1 →
        (apply_diversity_adjustment places).get? i =
          some (places.get ⟨i, hi⟩)) ∧
      (2 ≤ n →
        (apply_diversity_adjustment places).get? i =
          some { places.get ⟨i, hi⟩ with
            score := (places.get ⟨i, hi⟩).score -
              (min 15 ((n - 1) * 5) : ℕ),
            diversity_penalty := some (min 15 ((n - 1) * 5)) })) ∧
    (∀ places : List ScoredPlace,
      List.Sorted (fun a b : ScoredPlace => b.score ≤ a.score)
        (sortDesc (apply_diversity_adjustment places))) := by
  refine ⟨?_, ?_, ?_⟩
  · intro places
    exact diversityLoop_length _ places []
  · intro places i hi n hn
    have hgl : places.get? i = some (places.get ⟨i, hi⟩) :=
      List.get?_eq_get hi
    have hgl2 : places[i]? = some (places.get ⟨i, hi⟩) := by
      rw [← List.get?_eq_getElem?]
      exact hgl
    have hn' : n = (places.take i).countP
        (fun r => brand_name r.place.name =
          brand_name (places.get ⟨i, hi⟩).place.name) + 1 := by
      rw [hn, List.take_succ, hgl2, List.countP_append]
      simp
    have hout : (apply_diversity_adjustment places).get? i =
        some (if 1 < places.countP (fun p => brand_name p.place.name =
            brand_name (places.get ⟨i, hi⟩).place.name) then
          applyPenalty (places.get ⟨i, hi⟩)
            (priorCount [] places i
              (brand_name (places.get ⟨i, hi⟩).place.name))
        else places.get ⟨i, hi⟩) := by
      unfold apply_diversity_adjustment
      rw [diversityLoop_get? _ places [] i, hgl]
      rfl
    have hprior : priorCount [] places i
        (brand_name (places.get ⟨i, hi⟩).place.name) = n - 1 := by
      unfold priorCount
      rw [hn']
      simp only [List.lookup_nil, Option.getD_none, Nat.zero_add,
        Nat.add_sub_cancel]
    constructor
    · intro h1
      rw [hout, hprior, h1]
      split
      · simp [applyPenalty]
      · rfl
    · intro h2
      have hcount : 1 < places.countP
          (fun p => brand_name p.place.name =
            brand_name (places.get ⟨i, hi⟩).place.name) := by
        have hle := List.Sublist.countP_le
          (fun r => decide (brand_name r.place.name =
            brand_name (places.get ⟨i, hi⟩).place.name))
          (List.take_sublist (i + 1) places)
        rw [← hn] at hle
        omega
      rw [hout, hprior, if_pos hcount]
      unfold applyPenalty
      rw [if_pos (by omega)]
  · intro places
    exact sortDesc_sorted (apply_diversity_adjustment places)

/-- Two branches of the same chain, as scored by the pipeline. -/
noncomputable def kfc1 : ScoredPlace :=
  { place := { name := "肯德基(中关村店)" }, score := 50 }

noncomputable def kfc2 : ScoredPlace :=
  { place := { name := "肯德基(五道口店)" }, score := 40 }

/-- C6 witness: with two same-brand venues, the first is untouched and
the second is penalized by exactly `min 15 5 = 5`. -/
theorem diversity_penalty_per_occurrence_witness :
    (apply_diversity_adjustment [kfc1, kfc2]).length = 2 ∧
    (apply_diversity_adjustment [kfc1, kfc2]).get? 0 = some kfc1 ∧
    (apply_diversity_adjustment [kfc1, kfc2]).get? 1 =
      some { kfc2 with
        score := kfc2.score - (min 15 ((2 - 1) * 5) : ℕ),
        diversity_penalty := some (min 15 ((2 - 1) * 5)) } := by
  refine ⟨?_, ?_, ?_⟩
  · rw [diversity_penalty_per_occurrence.1 [kfc1, kfc2]]
    rfl
  · have h := (diversity_penalty_per_occurrence.2.1 [kfc1, kfc2] 0
      (by norm_num) 1 (by simp [kfc1, kfc2, brand_name, replaceAll,
        replaceAllAux])).1 rfl
    simpa using h
  · have h := (diversity_penalty_per_occurrence.2.1 [kfc1, kfc2] 1
      (by norm_num) 2 (by simp [kfc1, kfc2, brand_name, replaceAll,
        replaceAllAux])).2 (by norm_num)
    simpa using h

/-! ## C5: bounds on the composite score -/

theorem calculate_base_score_le_30 (place : Venue) :
    calculate_base_score place ≤ 30 := by
  unfold calculate_base_score
  have h : min (base_score_rating place) 5 ≤ 5 := min_le_right _ _
  linarith

theorem calculate_base_score_nonneg (place : Venue)
    (h : 0 ≤ place.biz_ext_rating) : 0 ≤ calculate_base_score place := by
  unfold calculate_base_score base_score_rating
  have h5 : (0 : ℚ) ≤ 5 := by norm_num
  by_cases h0 : place.biz_ext_rating = 0
  · rw [if_pos h0]
    norm_num
  · rw [if_neg h0]
    have := le_min h h5
    linarith

theorem calculate_popularity_score_bounds (place : Venue) :
    0 ≤ calculate_popularity_score place ∧
    calculate_popularity_score place ≤ 20 := by
  unfold calculate_popularity_score
  dsimp only
  constructor
  · apply le_min (by norm_num)
    have hrev : (0 : ℝ) ≤
        (if 0 < place.review_count then
          Real.logb 10 ((place.review_count : ℝ) + 1) * 5
        else 0) := by
      split
      · rename_i hrc
        have h1 : (1 : ℝ) ≤ (place.review_count : ℝ) + 1 := by
          have : (1 : ℝ) ≤ (place.review_count : ℝ) := by
            exact_mod_cast hrc
          linarith
        have := Real.logb_nonneg (by norm_num : (1:ℝ) < 10) h1
        linarith
      · exact le_refl 0
    have hph : (0 : ℝ) ≤ ((min (place.photo_count * 2) 6 : ℕ) : ℝ) := by
      positivity
    linarith
  · exact min_le_left _ _

theorem calculate_distance_score_v2_bounds (place : Venue)
    (center_point : ℚ × ℚ) :
    0 ≤ (calculate_distance_score_v2 place center_point).1 ∧
    (calculate_distance_score_v2 place center_point).1 ≤ 25 := by
  unfold calculate_distance_score_v2
  match place.location with
  | none => exact ⟨le_refl 0, by norm_num⟩
  | some loc =>
      constructor
      · have := distance_decay_score_ge_5 (calculate_distance center_point loc)
        linarith
      · exact distance_decay_score_le_25 _

theorem calculate_scenario_match_score_bounds (place : Venue)
    (keywords : String) :
    0 ≤ (calculate_scenario_match_score place keywords).1 ∧
    (calculate_scenario_match_score place keywords).1 ≤ 15 := by
  unfold calculate_scenario_match_score
  dsimp only
  split
  · norm_num
  · split
    · norm_num
    · norm_num

theorem calculate_requirement_score_le_10 (place : Venue)
    (user_requirements : String) :
    (calculate_requirement_score place user_requirements).1 ≤ 10 := by
  unfold calculate_requirement_score
  dsimp only
  split
  · norm_num
  · split
    · norm_num
    · exact min_le_left _ _

theorem scorePlace_score_bounds (place : Venue) (center_point : ℚ × ℚ)
    (user_requirements keywords : String)
    (h : 0 ≤ place.biz_ext_rating) :
    0 ≤ (scorePlace place center_point user_requirements keywords).score ∧
    (scorePlace place center_point user_requirements keywords).score
      ≤ 100 := by
  unfold scorePlace
  have hb1 : (calculate_base_score place : ℝ) ≤ 30 := by
    exact_mod_cast calculate_base_score_le_30 place
  have hb0 : (0 : ℝ) ≤ (calculate_base_score place : ℝ) := by
    exact_mod_cast calculate_base_score_nonneg place h
  have hp := calculate_popularity_score_bounds place
  have hd := calculate_distance_score_v2_bounds place center_point
  have hs := calculate_scenario_match_score_bounds place keywords
  have hs1 : ((calculate_scenario_match_score place keywords).1 : ℝ)
      ≤ 15 := by exact_mod_cast hs.2
  have hs0 : (0 : ℝ) ≤
      ((calculate_scenario_match_score place keywords).1 : ℝ) := by
    exact_mod_cast hs.1
  have hr1 : ((calculate_requirement_score place
      user_requirements).1 : ℝ) ≤ 10 := by
    exact_mod_cast calculate_requirement_score_le_10 place user_requirements
  have hr0 : (0 : ℝ) ≤ ((calculate_requirement_score place
      user_requirements).1 : ℝ) := by positivity
  constructor
  · simp only
    linarith [hp.1, hd.1]
  · simp only
    linarith [hp.2, hd.2]

theorem diversityLoop_mem_bounds (counts : String → ℕ) :
    ∀ (l : List ScoredPlace) (seen : List (String × ℕ))
      (q : ScoredPlace), q ∈ diversityLoop counts seen l →
      ∃ p ∈ l, p.score - 15 ≤ q.score ∧ q.score ≤ p.score := by
  intro l
  induction l with
  | nil => intro seen q hq; exact absurd hq (List.not_mem_nil q)
  | cons p₀ rest ih =>
      intro seen q hq
      unfold diversityLoop at hq
      have hpen : ∀ sc : ℕ, q = applyPenalty p₀ sc →
          ∃ p ∈ p₀ :: rest, p.score - 15 ≤ q.score ∧ q.score ≤ p.score := by
        intro sc hq
        refine ⟨p₀, List.mem_cons_self p₀ rest, ?_⟩
        unfold applyPenalty at hq
        split at hq
        · subst hq
          simp only
          have h15 : ((min 15 (sc * 5) : ℕ) : ℝ) ≤ 15 := by
            exact_mod_cast min_le_left 15 (sc * 5)
          have h0 : (0 : ℝ) ≤ ((min 15 (sc * 5) : ℕ) : ℝ) := by positivity
          constructor <;> linarith
        · subst hq
          constructor <;> linarith
      by_cases hb : 1 < counts (brand_name p₀.place.name)
      · rw [if_pos hb] at hq
        rcases List.mem_cons.mp hq with h1 | h2
        · exact hpen _ h1
        · obtain ⟨p, hp, hb1, hb2⟩ := ih _ q h2
          exact ⟨p, List.mem_cons_of_mem p₀ hp, hb1, hb2⟩
      · rw [if_neg hb] at hq
        rcases List.mem_cons.mp hq with h1 | h2
        · refine ⟨p₀, List.mem_cons_self p₀ rest, ?_, ?_⟩
          · rw [h1]; linarith
          · rw [h1]
        · obtain ⟨p, hp, hb1, hb2⟩ := ih _ q h2
          exact ⟨p, List.mem_cons_of_mem p₀ hp, hb1, hb2⟩

theorem scenario_balance_subset (l : List ScoredPlace) (q : ScoredPlace)
    (hq : q ∈ scenario_balance l) : q ∈ l := by
  unfold scenario_balance at hq
  have h1 : q ∈ sortDesc ((orderedKeys (l.map balanceKeyword)).flatMap
      (fun kw => (l.filter (fun p => balanceKeyword p = kw)).take
        (max 2 (8 / (orderedKeys (l.map balanceKeyword)).length)))) :=
    List.take_subset 8 _ hq
  rw [sortDesc_mem] at h1
  obtain ⟨kw, _, hmem⟩ := List.mem_flatMap.mp h1
  have := List.take_subset _ _ hmem
  exact List.mem_of_mem_filter this

/-- The tail of `_rank_places` after the hard filters: whatever survives
is a scored venue of the filtered list, its score lowered by at most
15. -/
theorem rank_tail_mem (places₂ : List Venue) (center_point : ℚ × ℚ)
    (ur kw : String) (q : ScoredPlace)
    (hq : q ∈ (if places₂ = [] then ([] : List ScoredPlace)
      else
        if (sortDesc (apply_diversity_adjustment (sortDesc
            (places₂.map (fun p => scorePlace p center_point ur kw))))).any
            (fun p => p.place.source_keyword ≠ "") = true then
          scenario_balance (sortDesc (apply_diversity_adjustment (sortDesc
            (places₂.map (fun p => scorePlace p center_point ur kw)))))
        else
          (sortDesc (apply_diversity_adjustment (sortDesc
            (places₂.map (fun p => scorePlace p center_point ur
              kw))))).take 6)) :
    ∃ v ∈ places₂,
      (scorePlace v center_point ur kw).score - 15 ≤ q.score ∧
      q.score ≤ (scorePlace v center_point ur kw).score := by
  split at hq
  · exact absurd hq (List.not_mem_nil q)
  · have hq2 : q ∈ sortDesc (apply_diversity_adjustment (sortDesc
        (places₂.map (fun p => scorePlace p center_point ur kw)))) := by
      split at hq
      · exact scenario_balance_subset _ q hq
      · exact List.take_subset 6 _ hq
    rw [sortDesc_mem] at hq2
    obtain ⟨p, hp, h1, h2⟩ := diversityLoop_mem_bounds _ _ _ q hq2
    rw [sortDesc_mem] at hp
    obtain ⟨v, hv, hveq⟩ := List.mem_map.mp hp
    refine ⟨v, hv, ?_, ?_⟩
    · rw [hveq]; exact h1
    · rw [hveq]; exact h2

/-- Wherever a ranked venue comes from in the pipeline, it is a scored
input venue whose score was lowered by at most 15. -/
theorem rank_places_mem (places : List Venue) (center_point : ℚ × ℚ)
    (user_requirements keywords : String) (min_rating max_distance : ℚ)
    (q : ScoredPlace)
    (hq : q ∈ rank_places places center_point user_requirements keywords
      min_rating max_distance) :
    ∃ v ∈ places,
      (scorePlace v center_point user_requirements keywords).score - 15 ≤
        q.score ∧
      q.score ≤
        (scorePlace v center_point user_requirements keywords).score := by
  unfold rank_places at hq
  dsimp only at hq
  by_cases hmr : 0 < min_rating <;> by_cases hmd : max_distance < 100000 <;>
    simp only [hmr, hmd, if_true, if_false, ite_true, ite_false] at hq
  · obtain ⟨v, hv, h1, h2⟩ := rank_tail_mem _ _ _ _ q hq
    exact ⟨v, List.mem_of_mem_filter (List.mem_of_mem_filter hv), h1, h2⟩
  · obtain ⟨v, hv, h1, h2⟩ := rank_tail_mem _ _ _ _ q hq
    exact ⟨v, List.mem_of_mem_filter hv, h1, h2⟩
  · obtain ⟨v, hv, h1, h2⟩ := rank_tail_mem _ _ _ _ q hq
    exact ⟨v, List.mem_of_mem_filter hv, h1, h2⟩
  · obtain ⟨v, hv, h1, h2⟩ := rank_tail_mem _ _ _ _ q hq
    exact ⟨v, hv, h1, h2⟩

/-- Two same-brand venues, one excellent (rating 5) and one barely rated
(rating 0.5) — both with legitimate non-negative ratings. -/
def chaHi : Venue := { name := "茶语轩", biz_ext_rating := 5 }

def chaLo : Venue := { name := "茶语轩", biz_ext_rating := 1 / 2 }

/-- C5 counterexample: with ratings 5 and 0.5 for two branches of the
same brand, the low venue scores 30 and 3 before diversity; the second
occurrence is penalized by 5 and ends the pipeline with score 3 − 5 = −2
< 0 — the claimed lower bound 0 fails after the diversity penalty. -/
theorem composite_score_range_counterexample :
    (0 : ℚ) ≤ chaHi.biz_ext_rating ∧ (0 : ℚ) ≤ chaLo.biz_ext_rating ∧
    rank_places [chaHi, chaLo] (0, 0) "" "" 0 100000 =
      [{ place := chaHi, score := 30 },
       { place := chaLo, score := (3 : ℝ) - ((5 : ℕ) : ℝ),
         diversity_penalty := some 5 }] ∧
    (3 : ℝ) - ((5 : ℕ) : ℝ) < 0 := by
  refine ⟨by norm_num [chaHi], by norm_num [chaLo], ?_, by norm_num⟩
  have hHi : scorePlace chaHi (0, 0) "" "" =
      { place := chaHi, score := 30 } := by
    unfold scorePlace calculate_base_score base_score_rating
      calculate_popularity_score calculate_distance_score_v2
      calculate_scenario_match_score calculate_requirement_score
    norm_num [chaHi]
  have hLo : scorePlace chaLo (0, 0) "" "" =
      { place := chaLo, score := 3 } := by
    unfold scorePlace calculate_base_score base_score_rating
      calculate_popularity_score calculate_distance_score_v2
      calculate_scenario_match_score calculate_requirement_score
    norm_num [chaLo]
  have hbrand : brand_name "茶语轩" = "茶语轩" := by decide
  have hsort1 : sortDesc [({ place := chaHi, score := 30 } : ScoredPlace),
      { place := chaLo, score := 3 }] =
      [{ place := chaHi, score := 30 }, { place := chaLo, score := 3 }] := by
    norm_num [sortDesc, insertDesc]
  have hdiv : apply_diversity_adjustment
      [({ place := chaHi, score := 30 } : ScoredPlace),
       { place := chaLo, score := 3 }] =
      [{ place := chaHi, score := 30 },
       { place := chaLo, score := (3 : ℝ) - ((5 : ℕ) : ℝ),
         diversity_penalty := some 5 }] := by
    norm_num [apply_diversity_adjustment, diversityLoop, applyPenalty,
      updateSeen, List.lookup, hbrand, chaHi, chaLo, List.countP,
      List.countP.go]
  have hsort2 : sortDesc
      [({ place := chaHi, score := 30 } : ScoredPlace),
       { place := chaLo, score := (3 : ℝ) - ((5 : ℕ) : ℝ),
         diversity_penalty := some 5 }] =
      [{ place := chaHi, score := 30 },
       { place := chaLo, score := (3 : ℝ) - ((5 : ℕ) : ℝ),
         diversity_penalty := some 5 }] := by
    norm_num [sortDesc, insertDesc]
  unfold rank_places
  dsimp only
  rw [if_neg (by norm_num : ¬(0 : ℚ) < 0)]
  rw [if_neg (by norm_num : ¬(100000 : ℚ) < 100000)]
  rw [if_neg (by simp : ¬([chaHi, chaLo] = []))]
  simp only [List.map, hHi, hLo]
  rw [hsort1, hdiv, hsort2]
  rw [if_neg (by simp [chaHi, chaLo])]
  rfl

/-- C5 amended: the pre-penalty composite score of a venue with
non-negative parsed rating lies in [0, 100]; after the diversity penalty
(at most 15) every venue of the ranked output lies in [−15, 100] — the
upper bound 100 of the claim holds, but the lower bound is −15, not 0. -/
theorem composite_score_bounds :
    (∀ (place : Venue) (center_point : ℚ × ℚ)
      (user_requirements keywords : String),
      0 ≤ place.biz_ext_rating →
      0 ≤ (scorePlace place center_point user_requirements
          keywords).score ∧
        (scorePlace place center_point user_requirements keywords).score
          ≤ 100) ∧
    (∀ (places : List Venue) (center_point : ℚ × ℚ)
      (user_requirements keywords : String)
      (min_rating max_distance : ℚ) (q : ScoredPlace),
      (∀ p ∈ places, 0 ≤ p.biz_ext_rating) →
      q ∈ rank_places places center_point user_requirements keywords
        min_rating max_distance →
      -15 ≤ q.score ∧ q.score ≤ 100) := by
  constructor
  · exact scorePlace_score_bounds
  · intro places center_point ur kw mr md q hrat hq
    obtain ⟨v, hv, h1, h2⟩ :=
      rank_places_mem places center_point ur kw mr md q hq
    have hb := scorePlace_score_bounds v center_point ur kw (hrat v hv)
    exact ⟨by linarith [hb.1], by linarith [hb.2]⟩

/-- C5 witness: the bounds at a concrete venue and a concrete ranked
output. -/
theorem composite_score_bounds_witness :
    (0 ≤ (scorePlace chaHi (0, 0) "" "").score ∧
      (scorePlace chaHi (0, 0) "" "").score ≤ 100) ∧
    (-15 ≤ ({ place := chaHi, score := 30 } : ScoredPlace).score ∧
      ({ place := chaHi, score := 30 } : ScoredPlace).score ≤ 100) := by
  constructor
  · exact composite_score_bounds.1 chaHi (0, 0) "" ""
      (by norm_num [chaHi])
  · refine composite_score_bounds.2 [chaHi] (0, 0) "" "" 0 100000 _
      ?_ ?_
    · intro p hp
      rcases List.mem_singleton.mp hp with rfl
      norm_num [chaHi]
    · have hHi : scorePlace chaHi (0, 0) "" "" =
          { place := chaHi, score := 30 } := by
        unfold scorePlace calculate_base_score base_score_rating
          calculate_popularity_score calculate_distance_score_v2
          calculate_scenario_match_score calculate_requirement_score
        norm_num [chaHi]
      have heval : rank_places [chaHi] (0, 0) "" "" 0 100000 =
          [{ place := chaHi, score := 30 }] := by
        unfold rank_places
        dsimp only
        rw [if_neg (by norm_num : ¬(0 : ℚ) < 0)]
        rw [if_neg (by norm_num : ¬(100000 : ℚ) < 100000)]
        rw [if_neg (by simp : ¬([chaHi] = []))]
        simp only [List.map, hHi]
        have hs : sortDesc [({ place := chaHi, score := 30 } :
            ScoredPlace)] = [{ place := chaHi, score := 30 }] := rfl
        rw [hs]
        have hd : apply_diversity_adjustment
            [({ place := chaHi, score := 30 } : ScoredPlace)] =
            [{ place := chaHi, score := 30 }] := by
          norm_num [apply_diversity_adjustment, diversityLoop,
            List.countP, List.countP.go]
        rw [hd, hs]
        rw [if_neg (by simp [chaHi])]
        rfl
      rw [heval]
      exact List.mem_singleton.mpr rfl

/-! ## C8: swapping the two points of the spherical midpoint

Swapping the inputs reflects the intermediate vector
`(cos φ₁ + Bx, By)` through a rotation by `−Δλ`, so the computed
longitude is preserved only modulo 360°; near the antimeridian the two
orders return longitudes −180 and +180 for the same physical point. -/

theorem arg_swap_rotation (c1 c2 d : ℝ)
    (hz : ¬(c1 + c2 * Real.cos d = 0 ∧ c2 * Real.sin d = 0)) :
    ∃ k : ℤ,
      Complex.arg ⟨c2 + c1 * Real.cos (-d), c1 * Real.sin (-d)⟩ -
        (Complex.arg ⟨c1 + c2 * Real.cos d, c2 * Real.sin d⟩ - d) =
      2 * Real.pi * k := by
  have hz1 : (⟨c1 + c2 * Real.cos d, c2 * Real.sin d⟩ : ℂ) ≠ 0 := by
    intro h
    rw [Complex.ext_iff] at h
    simp only [Complex.zero_re, Complex.zero_im] at h
    exact hz ⟨h.1, h.2⟩
  have hpy := Real.sin_sq_add_cos_sq d
  have hmul : (⟨c2 + c1 * Real.cos (-d), c1 * Real.sin (-d)⟩ : ℂ) =
      Complex.exp ((-d : ℝ) * Complex.I) *
        ⟨c1 + c2 * Real.cos d, c2 * Real.sin d⟩ := by
    rw [Complex.exp_mul_I]
    apply Complex.ext
    · simp only [← Complex.ofReal_neg, Complex.add_re, Complex.mul_re,
        Complex.mul_im, Complex.add_im, Complex.cos_ofReal_re,
        Complex.sin_ofReal_re, Complex.cos_ofReal_im,
        Complex.sin_ofReal_im, Complex.I_re, Complex.I_im, Real.cos_neg,
        Real.sin_neg]
      linear_combination (-c2) * hpy
    · simp only [← Complex.ofReal_neg, Complex.add_re, Complex.mul_re,
        Complex.mul_im, Complex.add_im, Complex.cos_ofReal_re,
        Complex.sin_ofReal_re, Complex.cos_ofReal_im,
        Complex.sin_ofReal_im, Complex.I_re, Complex.I_im, Real.cos_neg,
        Real.sin_neg]
      ring
  have hexparg : (Complex.arg (Complex.exp (((-d : ℝ) : ℂ) *
      Complex.I)) : Real.Angle) = ((-d : ℝ) : Real.Angle) := by
    rw [Complex.exp_mul_I, ← Complex.ofReal_cos, ← Complex.ofReal_sin]
    have h := Complex.arg_cos_add_sin_mul_I_coe_angle
      (((-d : ℝ) : Real.Angle))
    rw [Real.Angle.cos_coe, Real.Angle.sin_coe] at h
    exact h
  have hangle : ((Complex.arg ⟨c2 + c1 * Real.cos (-d),
      c1 * Real.sin (-d)⟩ : ℝ) : Real.Angle) =
      ((-d + Complex.arg ⟨c1 + c2 * Real.cos d, c2 * Real.sin d⟩ : ℝ) :
        Real.Angle) := by
    rw [hmul, Complex.arg_mul_coe_angle (Complex.exp_ne_zero _) hz1,
      hexparg, Real.Angle.coe_add]
  obtain ⟨k, hk⟩ := Real.Angle.angle_eq_iff_two_pi_dvd_sub.mp hangle
  exact ⟨k, by linarith [hk]⟩

/-- C8 counterexample: at `p₁ = (−175°, 0°)`, `p₂ = (175°, 0°)` the two
input orders return longitudes −180 and +180 (the same point on the
sphere, different coordinates), so `center([p1,p2]) = center([p2,p1])`
fails as an equality of coordinate pairs. -/
theorem sphericalMidpoint_swap_counterexample :
    sphericalMidpoint (-175, 0) (175, 0) ≠
      sphericalMidpoint (175, 0) (-175, 0) := by
  have hpi := Real.pi_pos
  have h2 : Real.cos (Real.pi / 18) =
      2 * Real.cos (Real.pi / 36) ^ 2 - 1 := by
    have h := Real.cos_two_mul (Real.pi / 36)
    rw [show 2 * (Real.pi / 36) = Real.pi / 18 from by ring] at h
    exact h
  have h3 : Real.sin (Real.pi / 18) =
      2 * Real.sin (Real.pi / 36) * Real.cos (Real.pi / 36) := by
    have h := Real.sin_two_mul (Real.pi / 36)
    rw [show 2 * (Real.pi / 36) = Real.pi / 18 from by ring] at h
    exact h
  have hcos36 : 0 < Real.cos (Real.pi / 36) :=
    Real.cos_pos_of_mem_Ioo ⟨by nlinarith, by nlinarith⟩
  have hz1eq : (⟨1 + Real.cos (Real.pi / 18),
      -Real.sin (Real.pi / 18)⟩ : ℂ) =
      ↑(2 * Real.cos (Real.pi / 36)) *
        (Complex.cos ↑(-(Real.pi / 36)) +
          Complex.sin ↑(-(Real.pi / 36)) * Complex.I) := by
    apply Complex.ext
    · simp only [Complex.add_re, Complex.mul_re, Complex.mul_im,
        Complex.add_im, Complex.ofReal_re, Complex.ofReal_im,
        Complex.cos_ofReal_re, Complex.sin_ofReal_re,
        Complex.cos_ofReal_im, Complex.sin_ofReal_im, Complex.I_re,
        Complex.I_im]
      rw [Real.cos_neg]
      linear_combination h2
    · simp only [Complex.add_re, Complex.mul_re, Complex.mul_im,
        Complex.add_im, Complex.ofReal_re, Complex.ofReal_im,
        Complex.cos_ofReal_re, Complex.sin_ofReal_re,
        Complex.cos_ofReal_im, Complex.sin_ofReal_im, Complex.I_re,
        Complex.I_im]
      rw [Real.sin_neg]
      linear_combination -h3
  have hz2eq : (⟨1 + Real.cos (Real.pi / 18),
      Real.sin (Real.pi / 18)⟩ : ℂ) =
      ↑(2 * Real.cos (Real.pi / 36)) *
        (Complex.cos ↑(Real.pi / 36) +
          Complex.sin ↑(Real.pi / 36) * Complex.I) := by
    apply Complex.ext
    · simp only [Complex.add_re, Complex.mul_re, Complex.mul_im,
        Complex.add_im, Complex.ofReal_re, Complex.ofReal_im,
        Complex.cos_ofReal_re, Complex.sin_ofReal_re,
        Complex.cos_ofReal_im, Complex.sin_ofReal_im, Complex.I_re,
        Complex.I_im]
      linear_combination h2
    · simp only [Complex.add_re, Complex.mul_re, Complex.mul_im,
        Complex.add_im, Complex.ofReal_re, Complex.ofReal_im,
        Complex.cos_ofReal_re, Complex.sin_ofReal_re,
        Complex.cos_ofReal_im, Complex.sin_ofReal_im, Complex.I_re,
        Complex.I_im]
      linear_combination h3
  have harg1 : Complex.arg ⟨1 + Real.cos (Real.pi / 18),
      -Real.sin (Real.pi / 18)⟩ = -(Real.pi / 36) := by
    rw [hz1eq]
    exact Complex.arg_mul_cos_add_sin_mul_I (by positivity)
      ⟨by nlinarith, by nlinarith⟩
  have harg2 : Complex.arg ⟨1 + Real.cos (Real.pi / 18),
      Real.sin (Real.pi / 18)⟩ = Real.pi / 36 := by
    rw [hz2eq]
    exact Complex.arg_mul_cos_add_sin_mul_I (by positivity)
      ⟨by nlinarith, by nlinarith⟩
  intro heq
  have h1 := congrArg Prod.fst heq
  unfold sphericalMidpoint atan2 degrees radians at h1
  dsimp only at h1
  rw [show (175 : ℝ) * Real.pi / 180 - (-175 : ℝ) * Real.pi / 180 =
    2 * Real.pi - Real.pi / 18 from by ring] at h1
  rw [show (-175 : ℝ) * Real.pi / 180 - (175 : ℝ) * Real.pi / 180 =
    -(2 * Real.pi - Real.pi / 18) from by ring] at h1
  rw [Real.cos_neg, Real.sin_neg, Real.cos_two_pi_sub,
    Real.sin_two_pi_sub] at h1
  simp only [show (0 : ℝ) * Real.pi / 180 = 0 from by ring,
    Real.cos_zero, Real.sin_zero, one_mul, neg_neg] at h1
  rw [harg1, harg2] at h1
  have hπ := Real.pi_ne_zero
  field_simp at h1
  nlinarith [hpi]

/-- C8 amended: swapping the two inputs of the 2-point spherical midpoint
preserves the computed latitude exactly, and preserves the computed
longitude modulo 360° (the same point on the sphere), provided the
bearing formula's intermediate vector `(cos φ₁ + Bx, By)` is non-zero
(it vanishes only in antipodal-type degenerate configurations, where the
midpoint is ill-defined); numeric equality of the longitude field can
fail (by exactly a 360° wrap) for inputs straddling the antimeridian. -/
theorem sphericalMidpoint_swap_mod_360 :
    ∀ c1 c2 : ℝ × ℝ,
      (sphericalMidpoint c1 c2).2 = (sphericalMidpoint c2 c1).2 ∧
      (¬(Real.cos (radians c1.2) +
            Real.cos (radians c2.2) *
              Real.cos (radians c2.1 - radians c1.1) = 0 ∧
          Real.cos (radians c2.2) *
            Real.sin (radians c2.1 - radians c1.1) = 0) →
        ∃ k : ℤ,
          (sphericalMidpoint c2 c1).1 - (sphericalMidpoint c1 c2).1 =
            k * 360) := by
  intro c1 c2
  unfold sphericalMidpoint atan2 degrees
  dsimp only
  constructor
  · congr 3
    apply Complex.ext
    · show Real.sqrt _ = Real.sqrt _
      congr 1
      have hpy := Real.sin_sq_add_cos_sq (radians c2.1 - radians c1.1)
      rw [show radians c1.1 - radians c2.1 =
        -(radians c2.1 - radians c1.1) from by ring, Real.cos_neg,
        Real.sin_neg]
      linear_combination (Real.cos (radians c2.2) ^ 2 -
        Real.cos (radians c1.2) ^ 2) * hpy
    · exact add_comm _ _
  · intro hz
    obtain ⟨k, hk⟩ := arg_swap_rotation (Real.cos (radians c1.2))
      (Real.cos (radians c2.2)) (radians c2.1 - radians c1.1) hz
    refine ⟨k, ?_⟩
    rw [show -(radians c2.1 - radians c1.1) =
      radians c1.1 - radians c2.1 from by ring] at hk
    have hπ := Real.pi_ne_zero
    field_simp
    linear_combination (180 : ℝ) * hk

/-- C8 witness: the amended statement at `(0°, 0°)` and `(90°, 0°)`,
where the intermediate vector is `(1, 1) ≠ 0`. -/
theorem sphericalMidpoint_swap_mod_360_witness :
    (sphericalMidpoint (0, 0) (90, 0)).2 =
      (sphericalMidpoint (90, 0) (0, 0)).2 ∧
    ∃ k : ℤ, (sphericalMidpoint (90, 0) (0, 0)).1 -
      (sphericalMidpoint (0, 0) (90, 0)).1 = k * 360 := by
  have h := sphericalMidpoint_swap_mod_360 (0, 0) (90, 0)
  refine ⟨h.1, h.2 ?_⟩
  intro hcontra
  obtain ⟨_, h2⟩ := hcontra
  unfold radians at h2
  dsimp only at h2
  rw [show (90 : ℝ) * Real.pi / 180 - (0 : ℝ) * Real.pi / 180 =
    Real.pi / 2 from by ring] at h2
  simp only [show (0 : ℝ) * Real.pi / 180 = 0 from by ring,
    Real.cos_zero, Real.sin_pi_div_two, one_mul] at h2
  exact one_ne_zero h2

end MeetSpot
